import Mathlib

/-!
# Verification of the fury agent registries and AI-action composition

Shallow embedding of `src/server/fury/agent.py` (model / programmatic-action /
AI-action registries, `AIAction.__init__` / `__call__`) and of the chain-fetch
validation in `src/chainfury/client.py` (`get_chain_from_id`).

Python values flowing through the system are embedded as the JSON-like type
`JValue`; Python dicts are insertion-ordered association lists (`PyDict`);
Python exceptions become the inductive `Err`; functions that both raise and
return `(result, error)` pairs are embedded as
`Except Err (JValue × Option Err)`.

Helpers living in `fury/base.py` (which is not part of the visible sources:
`extract_jinja_indices`, `get_value_by_keys`, `put_value_by_keys`,
`func_to_vars`, `func_to_return_vars`, the `Node`/`Model`/`Var` data classes,
and the jinja2 render) are modelled from the spec where marked below.
-/

/-- JSON-like runtime value (Python scalars, lists, dicts). Objects are
insertion-ordered association lists, mirroring Python dicts. -/
inductive JValue where
  | str : String → JValue
  | num : Int → JValue
  | boolean : Bool → JValue
  | null : JValue
  | arr : List JValue → JValue
  | obj : List (String × JValue) → JValue

/-- A Python dict with string keys and arbitrary values. -/
abbrev PyDict := List (String × JValue)

/-- One step of a nested extraction path: a mapping key or a sequence index
(Python indices may be negative, counting from the end). -/
inductive JKey where
  | key : String → JKey
  | idx : Int → JKey
deriving Repr, DecidableEq

/-- Python exceptions raised or returned by the embedded code. -/
inductive Err where
  | duplicateId : String → Err
  | notFound : String → Err
  | subsetErr : Err
  | templateErr : Err
  | requiredField : String → Err
  | notADict : Err
  | assertionFailed : Err
  | userErr : String → Err
deriving Repr, DecidableEq

/-! ## Generic Python-dict operations (association lists) -/

section DictOps

variable {α : Type}

/-- First value stored under key `k` (Python `d.get(k)` / `d[k]`). -/
def dlookup (d : List (String × α)) (k : String) : Option α :=
  match d with
  | [] => none
  | p :: rest => if p.1 == k then some p.2 else dlookup rest k

/-- Key-membership test (Python `k in d`). -/
def dcontains (d : List (String × α)) (k : String) : Bool :=
  match d with
  | [] => false
  | p :: rest => p.1 == k || dcontains rest k

/-- Python dict assignment `d[k] = v`: overwrite in place if the key exists,
append otherwise (insertion order preserved). -/
def dset (d : List (String × α)) (k : String) (v : α) : List (String × α) :=
  if dcontains d k then d.map (fun p => if p.1 == k then (k, v) else p)
  else d ++ [(k, v)]

/-- Python `d.pop(k)`-style removal of the entry for `k`. -/
def dremove (d : List (String × α)) (k : String) : List (String × α) :=
  d.filter (fun p => !(p.1 == k))

/-- Python `d.update(e)`: set every entry of `e` into `d`, in order. -/
def dupdate (d e : List (String × α)) : List (String × α) :=
  e.foldl (fun acc p => dset acc p.1 p.2) d

/-- First defined option, else the second (`a or b` on lookups). -/
def firstSome (a b : Option α) : Option α :=
  match a with
  | some x => some x
  | none => b

end DictOps

/-- Membership in a list of keys. -/
def kcontains (l : List String) (k : String) : Bool :=
  match l with
  | [] => false
  | s :: rest => s == k || kcontains rest k

/-- Pairwise distinctness of a list of keys. -/
def knodup (l : List String) : Bool :=
  match l with
  | [] => true
  | s :: rest => !(kcontains rest s) && knodup rest

/-- The keys of `d` are pairwise distinct (always true of a real Python dict). -/
def dnodup {α : Type} (d : List (String × α)) : Bool :=
  knodup (d.map (fun p => p.1))

/-! ## Well-formed values: every object level has distinct keys.
A value produced by Python's dict/list literals always satisfies this. -/

mutual
def WFb : JValue → Bool
  | JValue.arr xs => wfArr xs
  | JValue.obj kvs => dnodup kvs && wfObj kvs
  | _ => true
termination_by v => sizeOf v
def wfArr : List JValue → Bool
  | [] => true
  | v :: rest => WFb v && wfArr rest
termination_by l => sizeOf l
def wfObj : List (String × JValue) → Bool
  | [] => true
  | (_, v) :: rest => WFb v && wfObj rest
termination_by l => sizeOf l
end

/-! ## Python truthiness and str() -/

/-- Python falsiness of a value (`not v`). -/
def jFalsy : JValue → Bool
  | JValue.str s => s == ""
  | JValue.num n => n == 0
  | JValue.boolean b => !b
  | JValue.null => true
  | JValue.arr l => l.isEmpty
  | JValue.obj l => l.isEmpty

/-- The two brace characters, used by the jinja placeholder syntax. -/
def lbrace : Char := Char.ofNat 123

/-- Closing brace character. -/
def rbrace : Char := Char.ofNat 125

mutual
/-- Python `str(v)`, as interpolated into a rendered template. -/
def pyStr : JValue → String
  | JValue.str s => s
  | JValue.num n => toString n
  | JValue.boolean b => if b then "True" else "False"
  | JValue.null => "None"
  | JValue.arr xs => "[" ++ pyStrArr xs ++ "]"
  | JValue.obj kvs => lbrace.toString ++ pyStrObj kvs ++ rbrace.toString
termination_by v => sizeOf v
def pyStrArr : List JValue → String
  | [] => ""
  | [v] => pyStr v
  | v :: rest => pyStr v ++ ", " ++ pyStrArr rest
termination_by l => sizeOf l
def pyStrObj : List (String × JValue) → String
  | [] => ""
  | [(k, v)] => k ++ ": " ++ pyStr v
  | (k, v) :: rest => k ++ ": " ++ pyStr v ++ ", " ++ pyStrObj rest
termination_by l => sizeOf l
end

/-! ## Jinja template strings.
Modelled from the spec: the request body is scanned "for placeholder
occurrences matching `{{name}}`"; rendering replaces each placeholder with the
payload value for its variable (jinja2 is an external library, `fury/base.py`'s
use of it is not in src/). A template string is tokenized into literal chunks
and `var` placeholders. -/

/-- One token of a template string. -/
inductive Tok where
  | lit : List Char → Tok
  | var : String → Tok
deriving Repr, DecidableEq

/-- Drop leading and trailing spaces of a character list. -/
def trimChars (l : List Char) : List Char :=
  ((l.dropWhile (fun c => c == ' ')).reverse.dropWhile (fun c => c == ' ')).reverse

/-- Tokenizer state machine: `inVar` says whether we are inside an open
placeholder, `acc` holds the reversed name characters read so far. -/
def tokScan : List Char → Bool → List Char → List Tok
  | [], inVar, acc =>
    if inVar then [Tok.lit (lbrace :: lbrace :: acc.reverse)] else []
  | [c], inVar, acc =>
    if inVar then [Tok.lit (lbrace :: lbrace :: (c :: acc).reverse)] else [Tok.lit [c]]
  | c1 :: c2 :: rest, false, _ =>
    if c1 == lbrace && c2 == lbrace then tokScan rest true []
    else Tok.lit [c1] :: tokScan (c2 :: rest) false []
  | c1 :: c2 :: rest, true, acc =>
    if c1 == rbrace && c2 == rbrace then
      Tok.var (String.mk (trimChars acc.reverse)) :: tokScan rest false []
    else tokScan (c2 :: rest) true (c1 :: acc)

/-- Tokenize a template string. -/
def tokenize (s : String) : List Tok := tokScan s.data false []

/-- The placeholder variable names occurring in a template string. -/
def findVars (s : String) : List String :=
  (tokenize s).filterMap (fun t => match t with | Tok.var n => some n | _ => none)

/-- Render a template string against an environment: literals are copied,
placeholders are replaced by `str(value)` of the bound payload value
(jinja renders an unbound variable as the empty string). -/
def renderString (s : String) (env : PyDict) : String :=
  (tokenize s).foldl
    (fun acc t =>
      acc ++ match t with
             | Tok.lit cs => String.mk cs
             | Tok.var n => match dlookup env n with
                            | some v => pyStr v
                            | none => "")
    ""

/-! ## Generic nested-path get/set.
Modelled from the spec: "an ordered sequence of keys/indices used to pull a
value out of a nested structure", implemented "as a small recursive accessor
operating over a tagged value (mapping, sequence, scalar), returning a
not-found result rather than throwing" (`fury/base.py` is not in src/). -/

/-- Normalize a Python sequence index (negative counts from the end). -/
def pyNormIdx (len : Nat) (i : Int) : Option Nat :=
  if 0 ≤ i ∧ i < (len : Int) then some i.toNat
  else if -(len : Int) ≤ i ∧ i < 0 then some (i + (len : Int)).toNat
  else none

/-- Walk a nested path through a value: keys at mapping levels, indices at
sequence levels. -/
def get_value_by_keys : List JKey → JValue → Option JValue
  | [], v => some v
  | JKey.key s :: ks, v =>
    match v with
    | JValue.obj kvs =>
      match dlookup kvs s with
      | some w => get_value_by_keys ks w
      | none => none
    | _ => none
  | JKey.idx i :: ks, v =>
    match v with
    | JValue.arr l =>
      match pyNormIdx l.length i with
      | some n =>
        match l.get? n with
        | some w => get_value_by_keys ks w
        | none => none
      | none => none
    | _ => none

/-- Replace the element at position `n` by `f` applied to it. -/
def listModify {α : Type} : List α → Nat → (α → α) → List α
  | [], _, _ => []
  | x :: xs, 0, f => f x :: xs
  | x :: xs, n + 1, f => x :: listModify xs n f

/-- Write a value at the end of a nested path; positions that do not exist are
left untouched. -/
def put_value_by_keys : List JKey → JValue → JValue → JValue
  | [], _, x => x
  | JKey.key s :: ks, v, x =>
    match v with
    | JValue.obj kvs =>
      JValue.obj (kvs.map (fun p => if p.1 == s then (p.1, put_value_by_keys ks p.2 x) else p))
    | _ => v
  | JKey.idx i :: ks, v, x =>
    match v with
    | JValue.arr l =>
      match pyNormIdx l.length i with
      | some n => JValue.arr (listModify l n (fun w => put_value_by_keys ks w x))
      | none => JValue.arr l
    | _ => v

/-! ## Placeholder extraction.
Modelled from the spec: on construction the nested request body is scanned
"for placeholder occurrences matching `{{name}}`, recording, for each
occurrence, the nested path to the containing leaf and the set of variable
names referenced" (`extract_jinja_indices` of `fury/base.py` is not in src/). -/

mutual
def extract_jinja_indices : JValue → List (List JKey × List String)
  | JValue.str s => if (findVars s).isEmpty then [] else [([], findVars s)]
  | JValue.arr xs => ejArr xs 0
  | JValue.obj kvs => ejObj kvs
  | _ => []
termination_by v => sizeOf v
def ejArr : List JValue → Int → List (List JKey × List String)
  | [], _ => []
  | v :: rest, i =>
    (extract_jinja_indices v).map (fun pr => (JKey.idx i :: pr.1, pr.2)) ++ ejArr rest (i + 1)
termination_by l _ => sizeOf l
def ejObj : List (String × JValue) → List (List JKey × List String)
  | [] => []
  | (k, v) :: rest =>
    (extract_jinja_indices v).map (fun pr => (JKey.key k :: pr.1, pr.2)) ++ ejObj rest
termination_by l => sizeOf l
end

/-! Structural companion of the extraction: the placeholder leaves of a value,
each as (raw template string, path). Used to characterize what
`AIAction.__init__` stores in `self.templates`. -/
mutual
def tmplsOf : JValue → List (String × List JKey)
  | JValue.str s => if (findVars s).isEmpty then [] else [(s, [])]
  | JValue.arr xs => tmArr xs 0
  | JValue.obj kvs => tmObj kvs
  | _ => []
termination_by v => sizeOf v
def tmArr : List JValue → Int → List (String × List JKey)
  | [], _ => []
  | v :: rest, i =>
    (tmplsOf v).map (fun pr => (pr.1, JKey.idx i :: pr.2)) ++ tmArr rest (i + 1)
termination_by l _ => sizeOf l
def tmObj : List (String × JValue) → List (String × List JKey)
  | [] => []
  | (k, v) :: rest =>
    (tmplsOf v).map (fun pr => (pr.1, JKey.key k :: pr.2)) ++ tmObj rest
termination_by l => sizeOf l
end

/-! Specification-side substitution (spec §4.2 / §8: the rendered request is
"identical to the template with placeholders replaced — template structure
outside placeholders is preserved exactly"): a pure structural map that
renders exactly the placeholder leaves and keeps everything else. -/
mutual
def specSubstitute (env : PyDict) : JValue → JValue
  | JValue.str s =>
    if (findVars s).isEmpty then JValue.str s else JValue.str (renderString s env)
  | JValue.arr xs => JValue.arr (ssArr env xs)
  | JValue.obj kvs => JValue.obj (ssObj env kvs)
  | v => v
termination_by v => sizeOf v
def ssArr (env : PyDict) : List JValue → List JValue
  | [] => []
  | v :: rest => specSubstitute env v :: ssArr env rest
termination_by l => sizeOf l
def ssObj (env : PyDict) : List (String × JValue) → List (String × JValue)
  | [] => []
  | (k, v) :: rest => (k, specSubstitute env v) :: ssObj env rest
termination_by l => sizeOf l
end

/-! ## Field descriptors and callables.
Modelled from the spec: `func_to_vars` "derives field descriptors by
introspecting the supplied callable's parameters" (`fury/base.py` not in
src/); a Python callable is embedded as its parameter descriptors plus its
behavior. -/

/-- A field descriptor (`Var` of `fury/base.py`): name and required flag. -/
structure VarT where
  name : String
  required : Bool
deriving Repr, DecidableEq

/-- An output field descriptor: name plus extraction path (`Var` with `_loc`). -/
structure OutVar where
  name : String
  loc : List JKey
deriving Repr, DecidableEq

/-- A Python callable returning a `(result, error)` pair (models, programmatic
actions). -/
structure PyCallable where
  params : List VarT
  run : PyDict → JValue × Option Err

/-- A Python pre-processor callable used in AI-action function mode: it can
raise, and returns one value. -/
structure PreCallable where
  params : List VarT
  run : PyDict → Except Err JValue

/-- Modelled from the spec: `func_to_vars` derives the input field descriptors
from the callable's parameter signature. -/
def func_to_vars (f : PyCallable) : List VarT := f.params

/-- The `Model` dataclass of `fury/base.py` (modelled from the spec's data
model: collection name, id, callable, description, derived fields, tags). -/
structure ModelT where
  collection_name : String
  model_id : String
  description : String
  vars : List VarT
  tags : List String
  fn : PyDict → JValue × Option Err

/-! ## Model registry (`ModelRegistry` in agent.py) -/

structure ModelRegistry where
  models : List (String × ModelT)
  counter : List (String × Nat)
  tags_to_models : List (String × List String)

def ModelRegistry.has (r : ModelRegistry) (model_id : String) : Bool :=
  dcontains r.models model_id

/-- `ModelRegistry.register`: raises on a duplicate id before any write, else
stores the model and indexes its tags. The returned registry is the state
after the call (unchanged when the duplicate error is raised). -/
def ModelRegistry.register (r : ModelRegistry) (fn : PyCallable)
    (collection_name model_id description : String) (tags : List String) :
    ModelRegistry × Option Err :=
  if dcontains r.models model_id then (r, some (Err.duplicateId model_id))
  else
    ({ models := dset r.models model_id
         { collection_name := collection_name
           model_id := model_id
           description := description
           vars := func_to_vars fn
           tags := tags
           fn := fn.run }
       counter := r.counter
       tags_to_models := tags.foldl
         (fun tm tag => dset tm tag ((dlookup tm tag).getD [] ++ [model_id]))
         r.tags_to_models }, none)

def ModelRegistry.get_tags (r : ModelRegistry) : List String :=
  r.tags_to_models.map (fun p => p.1)

/-- `ModelRegistry.get_models`: the source ignores its `tag` parameter and
enumerates every registered model (`to_dict` serialization of `fury/base.py`
is elided; each entry is the singleton mapping `{id: model}`). -/
def ModelRegistry.get_models (r : ModelRegistry) (tag : String) :
    List (List (String × ModelT)) :=
  let _ := tag
  r.models.map (fun p => [p])

/-- `ModelRegistry.get`: increments the usage counter first, then raises
NotFound if the id is absent. -/
def ModelRegistry.get (r : ModelRegistry) (model_id : String) :
    ModelRegistry × Except Err ModelT :=
  let r' : ModelRegistry :=
    { models := r.models
      counter := dset r.counter model_id ((dlookup r.counter model_id).getD 0 + 1)
      tags_to_models := r.tags_to_models }
  match dlookup r'.models model_id with
  | none => (r', Except.error (Err.notFound model_id))
  | some m => (r', Except.ok m)

def ModelRegistry.get_count_for_model (r : ModelRegistry) (model_id : String) : Nat :=
  (dlookup r.counter model_id).getD 0

/-! ## AI action (`AIAction` in agent.py) -/

/-- The `fn` argument of an AI action: either a nested request template
(`type(fn) == dict`, template mode) or a pre-processing callable
(function mode). -/
inductive AFn where
  | jtype : PyDict → AFn
  | func : PreCallable → AFn

/-- The constructed `AIAction` object. -/
structure AIActionT where
  node_id : String
  model : ModelT
  model_params : PyDict
  fn : AFn
  templates : List (String × List JKey)
  fields : List VarT
  outputs : List (String × List JKey)

/-- The template-initialization loop of `AIAction.__init__`: for every
extracted placeholder occurrence, re-read the leaf at its path; a missing or
falsy leaf raises (`ValueError`), a non-string leaf would make
`jinja2.Template` raise — both collapse to `templateErr`. On success the
stored templates are the (raw string, path) pairs in extraction order. -/
def initTemplatesAux (fn : JValue) :
    List (List JKey × List String) → List (String × List JKey) →
    Except Err (List (String × List JKey))
  | [], acc => Except.ok acc
  | pr :: rest, acc =>
    match get_value_by_keys pr.1 fn with
    | some (JValue.str s) =>
      if s = "" then Except.error Err.templateErr
      else initTemplatesAux fn rest (acc ++ [(s, pr.1)])
    | _ => Except.error Err.templateErr

def initTemplates (fn : JValue) : Except Err (List (String × List JKey)) :=
  initTemplatesAux fn (extract_jinja_indices fn) []

/-- The input-field names referenced by the template's placeholders
(`fields.extend(field[1])` in `__init__`). -/
def jinjaFieldNames (fn : JValue) : List String :=
  (extract_jinja_indices fn).foldl (fun acc pr => acc ++ pr.2) []

/-- `AIAction.__init__`: checks that the `model_params` keys are a subset of
the model's field names, then validates `fn` and builds the action. The
required flag of template-derived fields is modelled from the spec
(a missing required own-field later raises MissingFieldError). -/
def AIAction.init (node_id : String) (model : ModelT) (model_params : PyDict)
    (fn : AFn) (outputs : List (String × List JKey)) : Except Err AIActionT :=
  if !(model_params.all (fun p => (model.vars.map (fun v => v.name)).contains p.1)) then
    Except.error Err.subsetErr
  else
    match fn with
    | AFn.jtype t =>
      match initTemplates (JValue.obj t) with
      | Except.error e => Except.error e
      | Except.ok ts =>
        Except.ok
          { node_id := node_id
            model := model
            model_params := model_params
            fn := fn
            templates := ts
            fields := (jinjaFieldNames (JValue.obj t)).map (fun n => { name := n, required := true })
            outputs := outputs }
    | AFn.func f =>
      Except.ok
        { node_id := node_id
          model := model
          model_params := model_params
          fn := fn
          templates := []
          fields := f.params
          outputs := outputs }

/-- The field-partition loop opening `AIAction.__call__`: required own-fields
must be present; present own-fields are popped from the payload into `_data`. -/
def popFields : List VarT → PyDict → PyDict → Except Err (PyDict × PyDict)
  | [], acc, data => Except.ok (acc, data)
  | f :: fs, acc, data =>
    if f.required && !(dcontains data f.name) then
      Except.error (Err.requiredField f.name)
    else
      match dlookup data f.name with
      | some v => popFields fs (dset acc f.name v) (dremove data f.name)
      | none => popFields fs acc data

/-- The template-render loop of `AIAction.__call__` (template mode):
deep-copy the template, then for every stored (raw, path) render the raw
string with the own-fields and write it back at the recorded path. -/
def renderTemplates (fn : JValue) (ts : List (String × List JKey)) (env : PyDict) : JValue :=
  ts.foldl (fun acc pr => put_value_by_keys pr.2 acc (JValue.str (renderString pr.1 env))) fn

/-- Top-level entries of an object value (the rendered template is always a
dict in template mode). -/
def asObj : JValue → PyDict
  | JValue.obj kvs => kvs
  | _ => []

/-- The `fn_out` computation of `AIAction.__call__`: function mode invokes the
pre-processor (raises are caught and returned as `("", e)`, a non-dict result
likewise); template mode renders the deep-copied template. `Sum.inl` is an
early `return`, `Sum.inr` the produced request body. -/
def computeFnOut (a : AIActionT) (own : PyDict) :
    Except Err ((JValue × Option Err) ⊕ PyDict) :=
  match a.fn with
  | AFn.func f =>
    match f.run own with
    | Except.error e => Except.ok (Sum.inl (JValue.str "", some e))
    | Except.ok (JValue.obj kvs) => Except.ok (Sum.inr kvs)
    | Except.ok _ => Except.ok (Sum.inl (JValue.str "", some Err.notADict))
  | AFn.jtype t =>
    Except.ok (Sum.inr (asObj (renderTemplates (JValue.obj t) a.templates own)))

/-- The parameter merge of `AIAction.__call__`:
`{**model_params}` then `.update(data)` then `.update(fn_out)`. -/
def buildMerged (mp rest fnOut : PyDict) : PyDict :=
  dupdate (dupdate mp rest) fnOut

/-- The tail of `AIAction.__call__` after the model returns: a non-null error
is returned as `("", err)`, otherwise the pair is returned as-is. -/
def afterModel (p : JValue × Option Err) : Except Err (JValue × Option Err) :=
  match p.2 with
  | some e => Except.ok (JValue.str "", some e)
  | none => Except.ok (p.1, none)

/-- `AIAction.__call__`. -/
def AIAction.call (a : AIActionT) (data : PyDict) : Except Err (JValue × Option Err) :=
  match popFields a.fields [] data with
  | Except.error e => Except.error e
  | Except.ok (own, rest) =>
    match computeFnOut a own with
    | Except.error e => Except.error e
    | Except.ok (Sum.inl pair) => Except.ok pair
    | Except.ok (Sum.inr fnOut) =>
      afterModel (a.model.fn (buildMerged a.model_params rest fnOut))

/-! ## Nodes and the two action registries -/

inductive NodeType where
  | programmatic | ai | model
deriving Repr, DecidableEq

/-- The callable carried by a node. -/
inductive NodeFn where
  | progFn : (PyDict → JValue × Option Err) → NodeFn
  | aiFn : AIActionT → NodeFn
  | noFn : NodeFn

/-- The `Node` dataclass of `fury/base.py` (modelled from the spec's data
model: id, kind, callable, description, input fields, output fields). -/
structure NodeT where
  id : String
  type : NodeType
  description : String
  fields : List VarT
  outputs : List OutVar
  fn : NodeFn

structure ProgramaticActionsRegistry where
  nodes : List (String × NodeT)
  counter : List (String × Nat)
  tags_to_nodes : List (String × List String)

/-- `ProgramaticActionsRegistry.register`: raises on a duplicate id before any
write; requires a non-empty `returns` or `outputs` (assertion); output fields
from a flat `returns` list get empty extraction paths
(`func_to_return_vars` of `fury/base.py` modelled from the spec's
"output fields from a caller-declared return-shape mapping"). -/
def ProgramaticActionsRegistry.register (r : ProgramaticActionsRegistry)
    (fn : PyCallable) (node_id description : String)
    (returns : List String) (outputs : List (String × List JKey))
    (tags : List String) : ProgramaticActionsRegistry × Option Err :=
  if dcontains r.nodes node_id then (r, some (Err.duplicateId node_id))
  else if outputs.isEmpty && returns.isEmpty then (r, some Err.assertionFailed)
  else
    let ops : List OutVar :=
      if outputs.isEmpty then returns.map (fun x => { name := x, loc := [] })
      else outputs.map (fun p => { name := p.1, loc := p.2 })
    ({ nodes := dset r.nodes node_id
         { id := node_id
           type := NodeType.programmatic
           description := description
           fields := func_to_vars fn
           outputs := ops
           fn := NodeFn.progFn fn.run }
       counter := r.counter
       tags_to_nodes := tags.foldl
         (fun tm tag => dset tm tag ((dlookup tm tag).getD [] ++ [node_id]))
         r.tags_to_nodes }, none)

def ProgramaticActionsRegistry.get_tags (r : ProgramaticActionsRegistry) : List String :=
  r.tags_to_nodes.map (fun p => p.1)

/-- `get_nodes`: the source ignores its `tag` parameter and enumerates every
registered node. -/
def ProgramaticActionsRegistry.get_nodes (r : ProgramaticActionsRegistry)
    (tag : String) : List (List (String × NodeT)) :=
  let _ := tag
  r.nodes.map (fun p => [p])

def ProgramaticActionsRegistry.get (r : ProgramaticActionsRegistry) (node_id : String) :
    ProgramaticActionsRegistry × Except Err NodeT :=
  let r' : ProgramaticActionsRegistry :=
    { nodes := r.nodes
      counter := dset r.counter node_id ((dlookup r.counter node_id).getD 0 + 1)
      tags_to_nodes := r.tags_to_nodes }
  match dlookup r'.nodes node_id with
  | none => (r', Except.error (Err.notFound node_id))
  | some n => (r', Except.ok n)

def ProgramaticActionsRegistry.get_count_for_nodes (r : ProgramaticActionsRegistry)
    (node_id : String) : Nat :=
  (dlookup r.counter node_id).getD 0

structure AIActionsRegistry where
  nodes : List (String × NodeT)
  counter : List (String × Nat)
  tags_to_nodes : List (String × List String)

/-- The output-field computation of `AIActionsRegistry.register`: without
declared outputs, a single default output `model_output` with the empty
extraction path (`func_to_return_vars(ai_action.__call__, returns=
{"model_output": ()})`); otherwise one `Var` per declared output with its
location. -/
def aiOutputFields (outputs : List (String × List JKey)) : List OutVar :=
  if outputs.isEmpty then [{ name := "model_output", loc := [] }]
  else outputs.map (fun p => { name := p.1, loc := p.2 })

/-- `AIActionsRegistry.register`: resolves the model through the global model
registry (incrementing its counter, propagating NotFound), constructs the
`AIAction` (propagating its construction errors), and then stores the node —
note: with NO duplicate-id check, an existing entry is silently overwritten. -/
def AIActionsRegistry.register (mr : ModelRegistry) (r : AIActionsRegistry)
    (node_id model_id : String) (model_params : PyDict) (fn : AFn)
    (outputs : List (String × List JKey)) (description : String)
    (tags : List String) : ModelRegistry × AIActionsRegistry × Option Err :=
  let mres := ModelRegistry.get mr model_id
  match mres.2 with
  | Except.error e => (mres.1, r, some e)
  | Except.ok model =>
    match AIAction.init node_id model model_params fn outputs with
    | Except.error e => (mres.1, r, some e)
    | Except.ok ai_action =>
      (mres.1,
       { nodes := dset r.nodes node_id
           { id := node_id
             type := NodeType.ai
             description := description
             fields := ai_action.fields ++ model.vars
             outputs := aiOutputFields outputs
             fn := NodeFn.aiFn ai_action }
         counter := r.counter
         tags_to_nodes := tags.foldl
           (fun tm tag => dset tm tag ((dlookup tm tag).getD [] ++ [node_id]))
           r.tags_to_nodes }, none)

def AIActionsRegistry.get_tags (r : AIActionsRegistry) : List String :=
  r.tags_to_nodes.map (fun p => p.1)

/-- `get_nodes`: the source ignores its `tag` parameter and enumerates every
registered node. -/
def AIActionsRegistry.get_nodes (r : AIActionsRegistry) (tag : String) :
    List (List (String × NodeT)) :=
  let _ := tag
  r.nodes.map (fun p => [p])

def AIActionsRegistry.get (r : AIActionsRegistry) (node_id : String) :
    AIActionsRegistry × Except Err NodeT :=
  let r' : AIActionsRegistry :=
    { nodes := r.nodes
      counter := dset r.counter node_id ((dlookup r.counter node_id).getD 0 + 1)
      tags_to_nodes := r.tags_to_nodes }
  match dlookup r'.nodes node_id with
  | none => (r', Except.error (Err.notFound node_id))
  | some n => (r', Except.ok n)

def AIActionsRegistry.get_count_for_nodes (r : AIActionsRegistry) (node_id : String) : Nat :=
  (dlookup r.counter node_id).getD 0

/-! ## Node-level output recording for AI actions -/

/-- Record every declared output field of a node from the raw result by
walking its extraction path. -/
def extract_node_outputs (os : List OutVar) (raw : JValue) : List (String × Option JValue) :=
  os.map (fun o => (o.name, get_value_by_keys o.loc raw))

/-- Modelled from the spec: the Node execution layer of `fury/base.py` (not in
src/) invokes the AI action and, on success, records "every declared output
field (extracting via path if the node defines one)" from the raw model
result; action-level errors are propagated. -/
def nodeInvokeAI (a : AIActionT) (os : List OutVar) (data : PyDict) :
    Except Err (List (String × Option JValue)) :=
  match AIAction.call a data with
  | Except.error e => Except.error e
  | Except.ok (_, some e) => Except.error e
  | Except.ok (raw, none) => Except.ok (extract_node_outputs os raw)

/-! ## Chain fetch (`get_chain_from_id` in chainfury/client.py).
The HTTP fetch itself is an external collaborator; the embedding starts from
the fetched `dag` structure (the pydantic `Dag` of `chainfury/types`, not in
src/, is modelled from the spec's wire shape: nodes, edges, sample, main_in,
main_out). `Node.from_dict` of `fury/base.py` is abstracted as a parameter,
and the remote action-lookup endpoint as a function returning
`(body, is_error)`; the list of remote lookups performed is returned as a log. -/

structure DagNodeT where
  id : String
  cf_id : String
  cf_data : Option JValue

structure DagEdgeT where
  source : String
  target : String
  sourceHandle : String
  targetHandle : String

structure DagT where
  nodes : List DagNodeT
  edges : List DagEdgeT
  sample : PyDict
  main_in : String
  main_out : String

structure EdgeT where
  source : String
  target : String
  sourceHandle : String
  targetHandle : String
deriving Repr, DecidableEq

structure ChainT where
  nodes : List NodeT
  edges : List EdgeT
  sample : PyDict
  main_in : String
  main_out : String

/-- Truthiness of the optional `cf_data` field (`if node.cf_data:`). -/
def cfDataTruthy (d : Option JValue) : Bool :=
  match d with
  | some v => !(jFalsy v)
  | none => false

/-- The node-resolution loop of `get_chain_from_id`: inline `cf_data` bodies
are deserialized; otherwise the id is resolved against the fetched-actions
cache, then the AI registry, then the programmatic registry (each registry
`get` increments its counter; a NotFound is swallowed), and finally against
the remote endpoint (logged; an error there raises). The chain-local node id
overrides the registry id. -/
def resolveNodes (nodeFromDict : JValue → NodeT) (remote : String → JValue × Bool) :
    List DagNodeT → AIActionsRegistry → ProgramaticActionsRegistry →
    List (String × NodeT) → List NodeT → List String →
    Except Err (List NodeT) × AIActionsRegistry × ProgramaticActionsRegistry × List String
  | [], air, pr, _, acc, log => (Except.ok acc, air, pr, log)
  | n :: rest, air, pr, amap, acc, log =>
    if n.cf_id = "" && !(cfDataTruthy n.cf_data) then
      (Except.error (Err.userErr "no cf_id or cf_data"), air, pr, log)
    else
      let step0 : Option NodeT :=
        match n.cf_data with
        | some d => if jFalsy d then dlookup amap n.cf_id else some (nodeFromDict d)
        | none => dlookup amap n.cf_id
      let s1 : AIActionsRegistry × Option NodeT :=
        match step0 with
        | some a => (air, some a)
        | none =>
          let g := AIActionsRegistry.get air n.cf_id
          (g.1, g.2.toOption)
      let s2 : ProgramaticActionsRegistry × Option NodeT :=
        match s1.2 with
        | some a => (pr, some a)
        | none =>
          let g := ProgramaticActionsRegistry.get pr n.cf_id
          (g.1, g.2.toOption)
      match s2.2 with
      | some a =>
        resolveNodes nodeFromDict remote rest s1.1 s2.1 amap
          (acc ++ [{ a with id := n.id }]) log
      | none =>
        let body := remote n.cf_id
        let log' := log ++ [n.cf_id]
        if body.2 then (Except.error (Err.notFound n.cf_id), s1.1, s2.1, log')
        else
          let a := nodeFromDict body.1
          resolveNodes nodeFromDict remote rest s1.1 s2.1 (dset amap n.cf_id a)
            (acc ++ [{ a with id := n.id }]) log'

/-- The edge-validation loop of `get_chain_from_id`. -/
def buildEdges : List DagEdgeT → Except Err (List EdgeT)
  | [] => Except.ok []
  | e :: rest =>
    if e.source = "" || e.target = "" || e.sourceHandle = "" || e.targetHandle = "" then
      Except.error (Err.userErr "Invalid edge")
    else
      match buildEdges rest with
      | Except.error err => Except.error err
      | Except.ok l =>
        Except.ok ({ source := e.source, target := e.target,
                     sourceHandle := e.sourceHandle, targetHandle := e.targetHandle } :: l)

/-- `get_chain_from_id`, from the fetched definition onwards: reject a dag
lacking `sample`, `main_in` or `main_out` before resolving any node; then
resolve nodes, build edges and assemble the chain. Returns the result, the
registries' final states, and the log of remote action lookups. -/
def get_chain_from_dag (nodeFromDict : JValue → NodeT) (remote : String → JValue × Bool)
    (dag : DagT) (air : AIActionsRegistry) (pr : ProgramaticActionsRegistry) :
    Except Err ChainT × AIActionsRegistry × ProgramaticActionsRegistry × List String :=
  if dag.sample.isEmpty then (Except.error (Err.userErr "Dag has no sample"), air, pr, [])
  else if dag.main_in = "" then (Except.error (Err.userErr "Dag has no main_in"), air, pr, [])
  else if dag.main_out = "" then (Except.error (Err.userErr "Dag has no main_out"), air, pr, [])
  else
    match resolveNodes nodeFromDict remote dag.nodes air pr [] [] [] with
    | (Except.error e, a, p, l) => (Except.error e, a, p, l)
    | (Except.ok nodes, a, p, l) =>
      match buildEdges dag.edges with
      | Except.error e => (Except.error e, a, p, l)
      | Except.ok edges =>
        (Except.ok { nodes := nodes, edges := edges, sample := dag.sample,
                     main_in := dag.main_in, main_out := dag.main_out }, a, p, l)

/-! ## Concrete objects used to exercise the embedding on closed inputs -/

/-- A trivial registered callable. -/
def pcDummy : PyCallable :=
  { params := [], run := fun _ => (JValue.null, none) }

/-- A pre-processor with no parameters returning an empty request body. -/
def preIdentity : PreCallable :=
  { params := [], run := fun _ => Except.ok (JValue.obj []) }

/-- A registered model that echoes nothing. -/
def mEcho : ModelT :=
  { collection_name := "c", model_id := "m", description := "", vars := [],
    tags := [], fn := fun _ => (JValue.null, none) }

/-- A model that returns a non-empty trace together with an error. -/
def mTrace : ModelT :=
  { collection_name := "c", model_id := "mt", description := "", vars := [],
    tags := [], fn := fun _ => (JValue.str "trace", some (Err.userErr "boom")) }

/-- A chat-style model returning a nested completion structure. -/
def mChat : ModelT :=
  { collection_name := "c", model_id := "mc", description := "", vars := [],
    tags := [],
    fn := fun _ => (JValue.obj [("choices", JValue.arr [JValue.str "hi"])], none) }

/-- A model with two declared fields, used for the merge-order scenario. -/
def mParams : ModelT :=
  { collection_name := "c", model_id := "mp", description := "",
    vars := [{ name := "model", required := true }, { name := "temperature", required := false }],
    tags := [], fn := fun _ => (JValue.null, none) }

/-- An AI node stored in a registry before re-registration. -/
def nodeOld : NodeT :=
  { id := "a", type := NodeType.ai, description := "old", fields := [],
    outputs := [], fn := NodeFn.noFn }

/-- A programmatic node stored in a registry. -/
def nodePOld : NodeT :=
  { id := "p", type := NodeType.programmatic, description := "pdesc", fields := [],
    outputs := [], fn := NodeFn.progFn (fun _ => (JValue.null, none)) }

/-- A model registry holding the model `"m"`. -/
def mrC4 : ModelRegistry :=
  { models := [("m", mEcho)], counter := [], tags_to_models := [] }

/-- An AI-actions registry already holding node id `"a"`. -/
def arC4 : AIActionsRegistry :=
  { nodes := [("a", nodeOld)], counter := [], tags_to_nodes := [] }

/-- A programmatic registry already holding node id `"p"`. -/
def prC4 : ProgramaticActionsRegistry :=
  { nodes := [("p", nodePOld)], counter := [], tags_to_nodes := [] }

/-- A function-mode action wrapping the trace-and-error model. -/
def actC6 : AIActionT :=
  { node_id := "n6", model := mTrace, model_params := [], fn := AFn.func preIdentity,
    templates := [], fields := [], outputs := [] }

/-- A function-mode action wrapping the chat model, with one declared output. -/
def actC2 : AIActionT :=
  { node_id := "n2", model := mChat, model_params := [], fn := AFn.func preIdentity,
    templates := [], fields := [], outputs := [("reply", [JKey.key "choices", JKey.idx 0])] }

/-- A pre-processor producing a request body that collides with both the
static model parameters and the caller payload. -/
def preMsg : PreCallable :=
  { params := [{ name := "message", required := true }],
    run := fun _ => Except.ok (JValue.obj [("prompt", JValue.str "p"), ("temperature", JValue.num 1)]) }

/-- A function-mode action with static model parameters, used for the
merge-order scenario. -/
def actC3 : AIActionT :=
  { node_id := "n3", model := mParams,
    model_params := [("model", JValue.str "gpt"), ("temperature", JValue.num 0)],
    fn := AFn.func preMsg, templates := [],
    fields := [{ name := "message", required := true }], outputs := [] }

/-- The caller payload for the merge-order scenario. -/
def dataC3 : PyDict :=
  [("message", JValue.str "hi"), ("temperature", JValue.num 2), ("model", JValue.str "m2")]

/-- The payload remainder after the own-field `message` is popped. -/
def restC3 : PyDict :=
  [("temperature", JValue.num 2), ("model", JValue.str "m2")]

/-- The request body produced by the pre-processor. -/
def fnOutC3 : PyDict :=
  [("prompt", JValue.str "p"), ("temperature", JValue.num 1)]

/-- A fetched dag whose `main_out` is missing. -/
def dagC8 : DagT :=
  { nodes := [{ id := "n1", cf_id := "c1", cf_data := none }], edges := [],
    sample := [("k", JValue.null)], main_in := "in", main_out := "" }

/-- A node deserializer for the chain-fetch scenario. -/
def nfdC8 : JValue → NodeT := fun _ => nodeOld

/-- A remote action-lookup endpoint that always fails. -/
def remoteC8 : String → JValue × Bool := fun _ => (JValue.null, true)

/-- The template leaf `"{{text}}"` (braces spelled via their codepoints). -/
def sTpl : String := "\x7b\x7btext\x7d\x7d"

/-- Scenario A template: `{"say": "{{text}}"}`. -/
def tW : PyDict := [("say", JValue.str sTpl)]

/-- Scenario A payload: `{"text": "hi"}`. -/
def envW : PyDict := [("text", JValue.str "hi")]

/-! # Lemmas about the dict operations -/

theorem dlookup_nil {α : Type} (k : String) : dlookup ([] : List (String × α)) k = none := rfl

theorem dlookup_cons {α : Type} (p : String × α) (rest : List (String × α)) (k : String) :
    dlookup (p :: rest) k = if p.1 == k then some p.2 else dlookup rest k := rfl

theorem dcontains_cons {α : Type} (p : String × α) (rest : List (String × α)) (k : String) :
    dcontains (p :: rest) k = (p.1 == k || dcontains rest k) := rfl

theorem dcontains_false_lookup {α : Type} (d : List (String × α)) (k : String)
    (h : dcontains d k = false) : dlookup d k = none := by
  induction d with
  | nil => rfl
  | cons p rest ih =>
    rw [dcontains_cons, Bool.or_eq_false_iff] at h
    rw [dlookup_cons, if_neg (by simp [h.1]), ih h.2]

theorem dcontains_true_lookup {α : Type} (d : List (String × α)) (k : String)
    (h : dcontains d k = true) : ∃ v, dlookup d k = some v := by
  induction d with
  | nil => simp [dcontains] at h
  | cons p rest ih =>
    rw [dcontains_cons, Bool.or_eq_true] at h
    by_cases hb : p.1 == k
    · exact ⟨p.2, by rw [dlookup_cons, if_pos hb]⟩
    · obtain ⟨v, hv⟩ := ih (h.resolve_left (by simpa using hb))
      exact ⟨v, by rw [dlookup_cons, if_neg hb, hv]⟩

theorem dlookup_append {α : Type} (d e : List (String × α)) (k : String) :
    dlookup (d ++ e) k = firstSome (dlookup d k) (dlookup e k) := by
  induction d with
  | nil => simp [dlookup_nil, firstSome]
  | cons p rest ih =>
    by_cases hb : p.1 == k
    · have hp : p.1 = k := by simpa using hb
      simp [List.cons_append, dlookup_cons, hp, firstSome]
    · simp only [List.cons_append, dlookup_cons, if_neg hb, ih]

theorem dlookup_map_set {α : Type} (d : List (String × α)) (k : String) (v : α)
    (h : dcontains d k = true) :
    dlookup (d.map (fun p => if p.1 == k then (k, v) else p)) k = some v := by
  induction d with
  | nil => simp [dcontains] at h
  | cons p rest ih =>
    rw [dcontains_cons, Bool.or_eq_true] at h
    by_cases hb : p.1 == k
    · simp only [List.map_cons, if_pos hb, dlookup_cons]
      rw [if_pos (by simp)]
    · simp only [List.map_cons, if_neg hb, dlookup_cons, if_neg hb]
      exact ih (h.resolve_left (by simpa using hb))

theorem dlookup_map_set_ne {α : Type} (d : List (String × α)) (k k' : String) (v : α)
    (h : k ≠ k') :
    dlookup (d.map (fun p => if p.1 == k then (k, v) else p)) k' = dlookup d k' := by
  induction d with
  | nil => rfl
  | cons p rest ih =>
    by_cases hb : p.1 == k
    · have hp : p.1 = k := by simpa using hb
      simp only [List.map_cons, if_pos hb, dlookup_cons]
      rw [if_neg (by simp [h]), if_neg (by simp [hp, h]), ih]
    · simp only [List.map_cons, if_neg hb, dlookup_cons, ih]

theorem firstSome_none_right {α : Type} (a : Option α) : firstSome a none = a := by
  cases a <;> rfl

theorem dlookup_dset_self {α : Type} (d : List (String × α)) (k : String) (v : α) :
    dlookup (dset d k v) k = some v := by
  unfold dset
  by_cases h : dcontains d k
  · rw [if_pos h, dlookup_map_set d k v h]
  · rw [if_neg h, dlookup_append,
        dcontains_false_lookup d k (by simpa using h)]
    simp [firstSome, dlookup_cons]

theorem dlookup_dset_ne {α : Type} (d : List (String × α)) (k k' : String) (v : α)
    (h : k ≠ k') : dlookup (dset d k v) k' = dlookup d k' := by
  unfold dset
  by_cases hc : dcontains d k
  · rw [if_pos hc, dlookup_map_set_ne d k k' v h]
  · rw [if_neg hc, dlookup_append]
    have : dlookup [(k, v)] k' = none := by
      rw [dlookup_cons, if_neg (by simp [h]), dlookup_nil]
    rw [this, firstSome_none_right]

theorem dupdate_cons {α : Type} (d : List (String × α)) (p : String × α)
    (rest : List (String × α)) : dupdate d (p :: rest) = dupdate (dset d p.1 p.2) rest := rfl

theorem dcontains_eq_kcontains {α : Type} (d : List (String × α)) (k : String) :
    dcontains d k = kcontains (d.map (fun p => p.1)) k := by
  induction d with
  | nil => rfl
  | cons p rest ih => simp only [dcontains_cons, List.map_cons, kcontains, ih]

theorem dlookup_dupdate {α : Type} (d e : List (String × α)) (k : String)
    (h : dnodup e = true) :
    dlookup (dupdate d e) k = firstSome (dlookup e k) (dlookup d k) := by
  induction e generalizing d with
  | nil => simp [dupdate, dlookup_nil, firstSome]
  | cons p rest ih =>
    have hk : kcontains (rest.map (fun q => q.1)) p.1 = false ∧
        knodup (rest.map (fun q => q.1)) = true := by
      simp only [dnodup, List.map_cons, knodup, Bool.and_eq_true, Bool.not_eq_true'] at h
      exact h
    have h1 : dcontains rest p.1 = false := by
      rw [dcontains_eq_kcontains]; exact hk.1
    have h2 : dnodup rest = true := hk.2
    rw [dupdate_cons, ih _ h2]
    by_cases hk : p.1 = k
    · subst hk
      rw [dcontains_false_lookup rest p.1 h1, dlookup_dset_self]
      simp [firstSome, dlookup_cons]
    · rw [dlookup_dset_ne d p.1 k p.2 hk, dlookup_cons, if_neg (by simp [hk])]

/-! # C9: tag arguments are ignored by the enumeration operations -/

/-- C9: for every registry and every tag argument, `get_models` / `get_nodes`
returns one singleton entry per registered id; no filtering by tag occurs
(the right-hand sides do not mention the tag). -/
theorem c9_tag_ignored :
    ∀ (r : ModelRegistry) (p : ProgramaticActionsRegistry) (a : AIActionsRegistry)
      (tag : String),
      ModelRegistry.get_models r tag = r.models.map (fun q => [q]) ∧
      (ModelRegistry.get_models r tag).length = r.models.length ∧
      ProgramaticActionsRegistry.get_nodes p tag = p.nodes.map (fun q => [q]) ∧
      (ProgramaticActionsRegistry.get_nodes p tag).length = p.nodes.length ∧
      AIActionsRegistry.get_nodes a tag = a.nodes.map (fun q => [q]) ∧
      (AIActionsRegistry.get_nodes a tag).length = a.nodes.length := by
  intro r p a tag
  refine ⟨rfl, ?_, rfl, ?_, rfl, ?_⟩ <;>
    simp [ModelRegistry.get_models, ProgramaticActionsRegistry.get_nodes,
          AIActionsRegistry.get_nodes]

/-! # C5: the model_params subset check of AIAction.__init__ -/

theorem initTemplatesAux_ne_subsetErr (fn : JValue) :
    ∀ (l : List (List JKey × List String)) (acc : List (String × List JKey)),
      initTemplatesAux fn l acc ≠ Except.error Err.subsetErr := by
  intro l
  induction l with
  | nil => intro acc h; simp [initTemplatesAux] at h
  | cons pr rest ih =>
    intro acc h
    simp only [initTemplatesAux] at h
    split at h
    · split at h
      · simp at h
      · exact ih _ h
    · simp at h

theorem initTemplates_ne_subsetErr (fn : JValue) :
    initTemplates fn ≠ Except.error Err.subsetErr := by
  unfold initTemplates
  exact initTemplatesAux_ne_subsetErr fn _ []

/-- C5: constructing an AI action fails with the subset error exactly when the
`model_params` keys are not a subset of the wrapped model's field names. -/
theorem c5_model_params_subset :
    ∀ (node_id : String) (model : ModelT) (mp : PyDict) (fn : AFn)
      (outs : List (String × List JKey)),
      (AIAction.init node_id model mp fn outs = Except.error Err.subsetErr) ↔
        ¬ (mp.all (fun p => (model.vars.map (fun v => v.name)).contains p.1) = true) := by
  intro nid model mp fn outs
  constructor
  · intro h hall
    cases fn with
    | jtype t =>
      unfold AIAction.init at h
      simp only [hall, Bool.not_true, Bool.false_eq_true, if_false] at h
      cases hI : initTemplates (JValue.obj t) with
      | error e =>
        rw [hI] at h
        simp only [Except.error.injEq] at h
        exact initTemplates_ne_subsetErr (JValue.obj t) (by rw [hI, h])
      | ok ts => rw [hI] at h; simp at h
    | func f =>
      unfold AIAction.init at h
      simp only [hall, Bool.not_true, Bool.false_eq_true, if_false] at h
      simp at h
  · intro h
    have hb : mp.all (fun p => (model.vars.map (fun v => v.name)).contains p.1) = false := by
      cases hx : mp.all (fun p => (model.vars.map (fun v => v.name)).contains p.1)
      · rfl
      · exact absurd hx h
    unfold AIAction.init
    rw [hb]
    simp

/-! # C4: duplicate-id registration -/

/-- C4 (amended): the model and programmatic registries reject a duplicate id
with the DuplicateId error and return the registry state unchanged (mapping
and tag index included). The AI-action registry does not satisfy the original
claim — see the counterexample. -/
theorem c4_duplicate_rejected :
    ∀ (r : ModelRegistry) (fn : PyCallable) (cn mid desc : String) (tags : List String)
      (p : ProgramaticActionsRegistry) (fn2 : PyCallable) (nid desc2 : String)
      (rets : List String) (outs : List (String × List JKey)) (tags2 : List String),
      dcontains r.models mid = true → dcontains p.nodes nid = true →
      ModelRegistry.register r fn cn mid desc tags = (r, some (Err.duplicateId mid)) ∧
      ProgramaticActionsRegistry.register p fn2 nid desc2 rets outs tags2
        = (p, some (Err.duplicateId nid)) := by
  intro r fn cn mid desc tags p fn2 nid desc2 rets outs tags2 h1 h2
  constructor
  · unfold ModelRegistry.register
    rw [h1]
    simp
  · unfold ProgramaticActionsRegistry.register
    rw [h2]
    simp

/-- C4 counterexample: registering an already-present id in the AI-actions
registry raises no error and silently overwrites the stored node (there is no
duplicate check in `AIActionsRegistry.register`). -/
theorem c4_counterexample :
    (AIActionsRegistry.register mrC4 arC4 "a" "m" [] (AFn.func preIdentity) [] "new" []).2.2
      = none ∧
    (dlookup (AIActionsRegistry.register mrC4 arC4 "a" "m" [] (AFn.func preIdentity) [] "new" []).2.1.nodes
        "a").map (fun n => n.description) = some "new" ∧
    (dlookup arC4.nodes "a").map (fun n => n.description) = some "old" :=
  ⟨rfl, rfl, rfl⟩

/-- Witness for C4 (amended) at concrete registries. -/
theorem c4_duplicate_rejected_witness :
    ModelRegistry.register mrC4 pcDummy "c" "m" "" [] = (mrC4, some (Err.duplicateId "m")) ∧
    ProgramaticActionsRegistry.register prC4 pcDummy "p" "" ["x"] [] []
      = (prC4, some (Err.duplicateId "p")) :=
  c4_duplicate_rejected mrC4 pcDummy "c" "m" "" [] prC4 pcDummy "p" "" ["x"] [] [] rfl rfl

/-! # C7 and C10: registry get, usage counters -/

/-- C7: on every registry, two successive `get`s with a present id return the
same entity and bump the usage counter by exactly one each time; `get` with an
absent id fails with NotFound. -/
theorem c7_get_idempotent_counters :
    ∀ (r : ModelRegistry) (p : ProgramaticActionsRegistry) (ar : AIActionsRegistry)
      (im ip ia jm jp ja : String),
      dcontains r.models im = true → dcontains p.nodes ip = true →
      dcontains ar.nodes ia = true → dcontains r.models jm = false →
      dcontains p.nodes jp = false → dcontains ar.nodes ja = false →
      ((ModelRegistry.get r im).2 = (ModelRegistry.get (ModelRegistry.get r im).1 im).2 ∧
       ((ModelRegistry.get r im).2.toOption).isSome = true ∧
       ModelRegistry.get_count_for_model (ModelRegistry.get r im).1 im
         = ModelRegistry.get_count_for_model r im + 1 ∧
       ModelRegistry.get_count_for_model (ModelRegistry.get (ModelRegistry.get r im).1 im).1 im
         = ModelRegistry.get_count_for_model r im + 2 ∧
       (ModelRegistry.get r jm).2 = Except.error (Err.notFound jm)) ∧
      ((ProgramaticActionsRegistry.get p ip).2
         = (ProgramaticActionsRegistry.get (ProgramaticActionsRegistry.get p ip).1 ip).2 ∧
       ((ProgramaticActionsRegistry.get p ip).2.toOption).isSome = true ∧
       ProgramaticActionsRegistry.get_count_for_nodes (ProgramaticActionsRegistry.get p ip).1 ip
         = ProgramaticActionsRegistry.get_count_for_nodes p ip + 1 ∧
       ProgramaticActionsRegistry.get_count_for_nodes
           (ProgramaticActionsRegistry.get (ProgramaticActionsRegistry.get p ip).1 ip).1 ip
         = ProgramaticActionsRegistry.get_count_for_nodes p ip + 2 ∧
       (ProgramaticActionsRegistry.get p jp).2 = Except.error (Err.notFound jp)) ∧
      ((AIActionsRegistry.get ar ia).2
         = (AIActionsRegistry.get (AIActionsRegistry.get ar ia).1 ia).2 ∧
       ((AIActionsRegistry.get ar ia).2.toOption).isSome = true ∧
       AIActionsRegistry.get_count_for_nodes (AIActionsRegistry.get ar ia).1 ia
         = AIActionsRegistry.get_count_for_nodes ar ia + 1 ∧
       AIActionsRegistry.get_count_for_nodes
           (AIActionsRegistry.get (AIActionsRegistry.get ar ia).1 ia).1 ia
         = AIActionsRegistry.get_count_for_nodes ar ia + 2 ∧
       (AIActionsRegistry.get ar ja).2 = Except.error (Err.notFound ja)) := by
  intro r p ar im ip ia jm jp ja h1 h2 h3 h4 h5 h6
  obtain ⟨m, hm⟩ := dcontains_true_lookup r.models im h1
  obtain ⟨np, hp⟩ := dcontains_true_lookup p.nodes ip h2
  obtain ⟨na, ha⟩ := dcontains_true_lookup ar.nodes ia h3
  refine ⟨⟨?_, ?_, ?_, ?_, ?_⟩, ⟨?_, ?_, ?_, ?_, ?_⟩, ⟨?_, ?_, ?_, ?_, ?_⟩⟩
  · simp [ModelRegistry.get, hm]
  · simp [ModelRegistry.get, hm, Except.toOption]
  · simp [ModelRegistry.get, ModelRegistry.get_count_for_model, hm, dlookup_dset_self]
  · simp [ModelRegistry.get, ModelRegistry.get_count_for_model, hm, dlookup_dset_self]
  · simp [ModelRegistry.get, dcontains_false_lookup r.models jm h4]
  · simp [ProgramaticActionsRegistry.get, hp]
  · simp [ProgramaticActionsRegistry.get, hp, Except.toOption]
  · simp [ProgramaticActionsRegistry.get, ProgramaticActionsRegistry.get_count_for_nodes,
          hp, dlookup_dset_self]
  · simp [ProgramaticActionsRegistry.get, ProgramaticActionsRegistry.get_count_for_nodes,
          hp, dlookup_dset_self]
  · simp [ProgramaticActionsRegistry.get, dcontains_false_lookup p.nodes jp h5]
  · simp [AIActionsRegistry.get, ha]
  · simp [AIActionsRegistry.get, ha, Except.toOption]
  · simp [AIActionsRegistry.get, AIActionsRegistry.get_count_for_nodes, ha, dlookup_dset_self]
  · simp [AIActionsRegistry.get, AIActionsRegistry.get_count_for_nodes, ha, dlookup_dset_self]
  · simp [AIActionsRegistry.get, dcontains_false_lookup ar.nodes ja h6]

/-- Witness for C7 at concrete registries and ids. -/
theorem c7_get_idempotent_counters_witness :
    ((ModelRegistry.get mrC4 "m").2 = (ModelRegistry.get (ModelRegistry.get mrC4 "m").1 "m").2 ∧
     ((ModelRegistry.get mrC4 "m").2.toOption).isSome = true ∧
     ModelRegistry.get_count_for_model (ModelRegistry.get mrC4 "m").1 "m"
       = ModelRegistry.get_count_for_model mrC4 "m" + 1 ∧
     ModelRegistry.get_count_for_model (ModelRegistry.get (ModelRegistry.get mrC4 "m").1 "m").1 "m"
       = ModelRegistry.get_count_for_model mrC4 "m" + 2 ∧
     (ModelRegistry.get mrC4 "zm").2 = Except.error (Err.notFound "zm")) ∧
    ((ProgramaticActionsRegistry.get prC4 "p").2
       = (ProgramaticActionsRegistry.get (ProgramaticActionsRegistry.get prC4 "p").1 "p").2 ∧
     ((ProgramaticActionsRegistry.get prC4 "p").2.toOption).isSome = true ∧
     ProgramaticActionsRegistry.get_count_for_nodes (ProgramaticActionsRegistry.get prC4 "p").1 "p"
       = ProgramaticActionsRegistry.get_count_for_nodes prC4 "p" + 1 ∧
     ProgramaticActionsRegistry.get_count_for_nodes
         (ProgramaticActionsRegistry.get (ProgramaticActionsRegistry.get prC4 "p").1 "p").1 "p"
       = ProgramaticActionsRegistry.get_count_for_nodes prC4 "p" + 2 ∧
     (ProgramaticActionsRegistry.get prC4 "zp").2 = Except.error (Err.notFound "zp")) ∧
    ((AIActionsRegistry.get arC4 "a").2
       = (AIActionsRegistry.get (AIActionsRegistry.get arC4 "a").1 "a").2 ∧
     ((AIActionsRegistry.get arC4 "a").2.toOption).isSome = true ∧
     AIActionsRegistry.get_count_for_nodes (AIActionsRegistry.get arC4 "a").1 "a"
       = AIActionsRegistry.get_count_for_nodes arC4 "a" + 1 ∧
     AIActionsRegistry.get_count_for_nodes
         (AIActionsRegistry.get (AIActionsRegistry.get arC4 "a").1 "a").1 "a"
       = AIActionsRegistry.get_count_for_nodes arC4 "a" + 2 ∧
     (AIActionsRegistry.get arC4 "za").2 = Except.error (Err.notFound "za")) :=
  c7_get_idempotent_counters mrC4 prC4 arC4 "m" "p" "a" "zm" "zp" "za"
    rfl rfl rfl rfl rfl rfl

/-- C10: `get` with an absent id raises NotFound but still bumps that id's
usage counter by one — the counter counts lookup attempts, and the registry
state is not left unchanged by a failed lookup. -/
theorem c10_absent_get_increments :
    ∀ (r : ModelRegistry) (p : ProgramaticActionsRegistry) (ar : AIActionsRegistry)
      (jm jp ja : String),
      dcontains r.models jm = false → dcontains p.nodes jp = false →
      dcontains ar.nodes ja = false →
      ((ModelRegistry.get r jm).2 = Except.error (Err.notFound jm) ∧
       ModelRegistry.get_count_for_model (ModelRegistry.get r jm).1 jm
         = ModelRegistry.get_count_for_model r jm + 1) ∧
      ((ProgramaticActionsRegistry.get p jp).2 = Except.error (Err.notFound jp) ∧
       ProgramaticActionsRegistry.get_count_for_nodes (ProgramaticActionsRegistry.get p jp).1 jp
         = ProgramaticActionsRegistry.get_count_for_nodes p jp + 1) ∧
      ((AIActionsRegistry.get ar ja).2 = Except.error (Err.notFound ja) ∧
       AIActionsRegistry.get_count_for_nodes (AIActionsRegistry.get ar ja).1 ja
         = AIActionsRegistry.get_count_for_nodes ar ja + 1) := by
  intro r p ar jm jp ja h1 h2 h3
  refine ⟨⟨?_, ?_⟩, ⟨?_, ?_⟩, ⟨?_, ?_⟩⟩
  · simp [ModelRegistry.get, dcontains_false_lookup r.models jm h1]
  · simp [ModelRegistry.get, ModelRegistry.get_count_for_model,
          dcontains_false_lookup r.models jm h1, dlookup_dset_self]
  · simp [ProgramaticActionsRegistry.get, dcontains_false_lookup p.nodes jp h2]
  · simp [ProgramaticActionsRegistry.get, ProgramaticActionsRegistry.get_count_for_nodes,
          dcontains_false_lookup p.nodes jp h2, dlookup_dset_self]
  · simp [AIActionsRegistry.get, dcontains_false_lookup ar.nodes ja h3]
  · simp [AIActionsRegistry.get, AIActionsRegistry.get_count_for_nodes,
          dcontains_false_lookup ar.nodes ja h3, dlookup_dset_self]

/-- Witness for C10 at concrete registries and absent ids. -/
theorem c10_absent_get_increments_witness :
    ((ModelRegistry.get mrC4 "zm").2 = Except.error (Err.notFound "zm") ∧
     ModelRegistry.get_count_for_model (ModelRegistry.get mrC4 "zm").1 "zm"
       = ModelRegistry.get_count_for_model mrC4 "zm" + 1) ∧
    ((ProgramaticActionsRegistry.get prC4 "zp").2 = Except.error (Err.notFound "zp") ∧
     ProgramaticActionsRegistry.get_count_for_nodes (ProgramaticActionsRegistry.get prC4 "zp").1 "zp"
       = ProgramaticActionsRegistry.get_count_for_nodes prC4 "zp" + 1) ∧
    ((AIActionsRegistry.get arC4 "za").2 = Except.error (Err.notFound "za") ∧
     AIActionsRegistry.get_count_for_nodes (AIActionsRegistry.get arC4 "za").1 "za"
       = AIActionsRegistry.get_count_for_nodes arC4 "za" + 1) :=
  c10_absent_get_increments mrC4 prC4 arC4 "zm" "zp" "za" rfl rfl rfl

/-! # C3: the parameter merge of AIAction.__call__ -/

/-- C3: the parameters passed to the wrapped model are built by merging, later
overriding earlier: static model params, then the payload remainder (own
fields removed by the partition), then the produced request body; a key of the
request body beats both, and a key absent from the request body falls back to
the payload, then to the static params. -/
theorem c3_merge_order :
    ∀ (a : AIActionT) (data own rest fnOut : PyDict),
      popFields a.fields [] data = Except.ok (own, rest) →
      computeFnOut a own = Except.ok (Sum.inr fnOut) →
      dnodup rest = true → dnodup fnOut = true →
      AIAction.call a data = afterModel (a.model.fn (buildMerged a.model_params rest fnOut)) ∧
      ∀ k, dlookup (buildMerged a.model_params rest fnOut) k =
        firstSome (dlookup fnOut k) (firstSome (dlookup rest k) (dlookup a.model_params k)) := by
  intro a data own rest fnOut h1 h2 hr hf
  constructor
  · simp only [AIAction.call, h1, h2]
  · intro k
    unfold buildMerged
    rw [dlookup_dupdate _ _ _ hf, dlookup_dupdate _ _ _ hr]

/-- Witness for C3 at a concrete action and payload: the request-body value
wins for `temperature`, the per-call payload wins for `model`. -/
theorem c3_merge_order_witness :
    (AIAction.call actC3 dataC3
       = afterModel (actC3.model.fn (buildMerged actC3.model_params restC3 fnOutC3))) ∧
    dlookup (buildMerged actC3.model_params restC3 fnOutC3) "temperature" =
      firstSome (dlookup fnOutC3 "temperature")
        (firstSome (dlookup restC3 "temperature") (dlookup actC3.model_params "temperature")) ∧
    dlookup (buildMerged actC3.model_params restC3 fnOutC3) "model" =
      firstSome (dlookup fnOutC3 "model")
        (firstSome (dlookup restC3 "model") (dlookup actC3.model_params "model")) := by
  have h := c3_merge_order actC3 dataC3 [("message", JValue.str "hi")] restC3 fnOutC3
    rfl rfl rfl rfl
  exact ⟨h.1, h.2 "temperature", h.2 "model"⟩

/-! # C6: error propagation from the model through the action -/

/-- C6 (amended): when the wrapped model returns `(result, error)` with a
non-null error, the action propagates the error component unchanged but
discards the model's result component, returning the empty string in its
place. -/
theorem c6_error_result_replaced :
    ∀ (a : AIActionT) (data own rest fnOut : PyDict) (out : JValue) (e : Err),
      popFields a.fields [] data = Except.ok (own, rest) →
      computeFnOut a own = Except.ok (Sum.inr fnOut) →
      a.model.fn (buildMerged a.model_params rest fnOut) = (out, some e) →
      AIAction.call a data = Except.ok (JValue.str "", some e) := by
  intro a data own rest fnOut out e h1 h2 h3
  simp only [AIAction.call, h1, h2, h3]
  rfl

/-- C6 counterexample: a model returning the pair (`"trace"`, error) — the
action returns (`""`, error), so the pair is not propagated unchanged. -/
theorem c6_counterexample :
    AIAction.call actC6 [] = Except.ok (JValue.str "", some (Err.userErr "boom")) ∧
    actC6.model.fn (buildMerged actC6.model_params [] [])
      = (JValue.str "trace", some (Err.userErr "boom")) ∧
    ("" : String) ≠ "trace" :=
  ⟨rfl, rfl, by decide⟩

/-- Witness for C6 (amended) at the concrete action. -/
theorem c6_error_result_replaced_witness :
    AIAction.call actC6 [] = Except.ok (JValue.str "", some (Err.userErr "boom")) :=
  c6_error_result_replaced actC6 [] [] [] [] (JValue.str "trace") (Err.userErr "boom")
    rfl rfl rfl

/-! # C2: declared-output extraction from the raw model result -/

/-- C2: on a successful invocation, every declared output name is bound to the
value reached by walking its recorded path through the raw model result (keys
at mapping levels, indices at sequence levels); with no declared outputs the
raw result is returned under the single default name `model_output`. -/
theorem c2_output_extraction :
    ∀ (a : AIActionT) (data : PyDict) (outs : List (String × List JKey)) (raw : JValue),
      AIAction.call a data = Except.ok (raw, none) →
      nodeInvokeAI a (aiOutputFields outs) data
        = Except.ok (extract_node_outputs (aiOutputFields outs) raw) ∧
      extract_node_outputs (aiOutputFields outs) raw =
        (if outs.isEmpty then [("model_output", some raw)]
         else outs.map (fun p => (p.1, get_value_by_keys p.2 raw))) := by
  intro a data outs raw h
  constructor
  · unfold nodeInvokeAI
    rw [h]
  · by_cases ho : outs.isEmpty
    · simp [ho, aiOutputFields, extract_node_outputs, get_value_by_keys]
    · simp only [ho, aiOutputFields, extract_node_outputs, if_neg, List.map_map,
                 Bool.false_eq_true, if_false]
      rfl

/-- Witness for C2: a concrete successful invocation with one declared output
whose path walks a key and then an index. -/
theorem c2_output_extraction_witness :
    nodeInvokeAI actC2 (aiOutputFields [("reply", [JKey.key "choices", JKey.idx 0])]) []
      = Except.ok (extract_node_outputs
          (aiOutputFields [("reply", [JKey.key "choices", JKey.idx 0])])
          (JValue.obj [("choices", JValue.arr [JValue.str "hi"])])) ∧
    extract_node_outputs (aiOutputFields [("reply", [JKey.key "choices", JKey.idx 0])])
        (JValue.obj [("choices", JValue.arr [JValue.str "hi"])])
      = (if ([("reply", [JKey.key "choices", JKey.idx 0])] : List (String × List JKey)).isEmpty
         then [("model_output", some (JValue.obj [("choices", JValue.arr [JValue.str "hi"])]))]
         else [("reply", [JKey.key "choices", JKey.idx 0])].map
           (fun p => (p.1, get_value_by_keys p.2
             (JValue.obj [("choices", JValue.arr [JValue.str "hi"])])))) :=
  c2_output_extraction actC2 [] [("reply", [JKey.key "choices", JKey.idx 0])]
    (JValue.obj [("choices", JValue.arr [JValue.str "hi"])]) rfl

/-! # C8: rejection of an invalid fetched chain definition -/

/-- C8: a fetched definition whose dag lacks `sample`, `main_in` or `main_out`
is rejected before any node is resolved: the result is an error, both
registries are returned unchanged (no registry lookup happened, counters
included), and no remote action lookup was performed. -/
theorem c8_invalid_dag_rejected :
    ∀ (nfd : JValue → NodeT) (remote : String → JValue × Bool) (dag : DagT)
      (air : AIActionsRegistry) (pr : ProgramaticActionsRegistry),
      (dag.sample.isEmpty = true ∨ dag.main_in = "" ∨ dag.main_out = "") →
      ((get_chain_from_dag nfd remote dag air pr).1.toOption = none ∧
       (get_chain_from_dag nfd remote dag air pr).2.1 = air ∧
       (get_chain_from_dag nfd remote dag air pr).2.2.1 = pr ∧
       (get_chain_from_dag nfd remote dag air pr).2.2.2 = []) := by
  intro nfd remote dag air pr h
  by_cases h1 : dag.sample.isEmpty = true
  · simp [get_chain_from_dag, h1, Except.toOption]
  · by_cases h2 : dag.main_in = ""
    · simp [get_chain_from_dag, h1, h2, Except.toOption]
    · by_cases h3 : dag.main_out = ""
      · simp [get_chain_from_dag, h1, h2, h3, Except.toOption]
      · rcases h with h | h | h
        · exact absurd h h1
        · exact absurd h h2
        · exact absurd h h3

/-- Witness for C8: a dag with nodes and a non-empty sample but an empty
`main_out` is rejected with the registries untouched and no remote lookup. -/
theorem c8_invalid_dag_rejected_witness :
    (get_chain_from_dag nfdC8 remoteC8 dagC8 arC4 prC4).1.toOption = none ∧
    (get_chain_from_dag nfdC8 remoteC8 dagC8 arC4 prC4).2.1 = arC4 ∧
    (get_chain_from_dag nfdC8 remoteC8 dagC8 arC4 prC4).2.2.1 = prC4 ∧
    (get_chain_from_dag nfdC8 remoteC8 dagC8 arC4 prC4).2.2.2 = [] :=
  c8_invalid_dag_rejected nfdC8 remoteC8 dagC8 arC4 prC4 (Or.inr (Or.inr rfl))

/-! # C1 machinery: equations for the mutual definitions -/

theorem WFb_str (s : String) : WFb (JValue.str s) = true := by simp [WFb]

theorem WFb_num (n : Int) : WFb (JValue.num n) = true := by simp [WFb]

theorem WFb_boolean (b : Bool) : WFb (JValue.boolean b) = true := by simp [WFb]

theorem WFb_null : WFb JValue.null = true := by simp [WFb]

theorem WFb_arr (xs : List JValue) : WFb (JValue.arr xs) = wfArr xs := by simp [WFb]

theorem WFb_obj (kvs : List (String × JValue)) :
    WFb (JValue.obj kvs) = (dnodup kvs && wfObj kvs) := by simp [WFb]

theorem wfArr_cons (v : JValue) (xs : List JValue) :
    wfArr (v :: xs) = (WFb v && wfArr xs) := by simp [wfArr]

theorem wfObj_cons (k : String) (v : JValue) (rest : List (String × JValue)) :
    wfObj ((k, v) :: rest) = (WFb v && wfObj rest) := by simp [wfObj]

theorem wfArr_mem : ∀ (xs : List JValue), wfArr xs = true → ∀ v ∈ xs, WFb v = true := by
  intro xs
  induction xs with
  | nil => intro _ v hv; cases hv
  | cons w rest ih =>
    intro h v hv
    rw [wfArr_cons, Bool.and_eq_true] at h
    cases hv with
    | head => exact h.1
    | tail _ hmem => exact ih h.2 v hmem

theorem wfObj_mem : ∀ (kvs : List (String × JValue)), wfObj kvs = true →
    ∀ kv ∈ kvs, WFb kv.2 = true := by
  intro kvs
  induction kvs with
  | nil => intro _ kv hv; cases hv
  | cons p rest ih =>
    intro h kv hv
    obtain ⟨k, v⟩ := p
    rw [wfObj_cons, Bool.and_eq_true] at h
    cases hv with
    | head => exact h.1
    | tail _ hmem => exact ih h.2 kv hmem

theorem ej_str (s : String) : extract_jinja_indices (JValue.str s)
    = if (findVars s).isEmpty then [] else [([], findVars s)] := by
  simp [extract_jinja_indices]

theorem ej_num (n : Int) : extract_jinja_indices (JValue.num n) = [] := by
  simp [extract_jinja_indices]

theorem ej_boolean (b : Bool) : extract_jinja_indices (JValue.boolean b) = [] := by
  simp [extract_jinja_indices]

theorem ej_null : extract_jinja_indices JValue.null = [] := by
  simp [extract_jinja_indices]

theorem ej_arr (xs : List JValue) : extract_jinja_indices (JValue.arr xs) = ejArr xs 0 := by
  simp [extract_jinja_indices]

theorem ej_obj (kvs : List (String × JValue)) :
    extract_jinja_indices (JValue.obj kvs) = ejObj kvs := by
  simp [extract_jinja_indices]

theorem ejArr_nil (i : Int) : ejArr [] i = [] := by simp [ejArr]

theorem ejArr_cons (v : JValue) (rest : List JValue) (i : Int) :
    ejArr (v :: rest) i
      = (extract_jinja_indices v).map (fun pr => (JKey.idx i :: pr.1, pr.2))
          ++ ejArr rest (i + 1) := by
  simp [ejArr]

theorem ejObj_nil : ejObj [] = [] := by simp [ejObj]

theorem ejObj_cons (k : String) (v : JValue) (rest : List (String × JValue)) :
    ejObj ((k, v) :: rest)
      = (extract_jinja_indices v).map (fun pr => (JKey.key k :: pr.1, pr.2)) ++ ejObj rest := by
  simp [ejObj]

theorem tm_str (s : String) : tmplsOf (JValue.str s)
    = if (findVars s).isEmpty then [] else [(s, [])] := by
  simp [tmplsOf]

theorem tm_num (n : Int) : tmplsOf (JValue.num n) = [] := by simp [tmplsOf]

theorem tm_boolean (b : Bool) : tmplsOf (JValue.boolean b) = [] := by simp [tmplsOf]

theorem tm_null : tmplsOf JValue.null = [] := by simp [tmplsOf]

theorem tm_arr (xs : List JValue) : tmplsOf (JValue.arr xs) = tmArr xs 0 := by simp [tmplsOf]

theorem tm_obj (kvs : List (String × JValue)) : tmplsOf (JValue.obj kvs) = tmObj kvs := by
  simp [tmplsOf]

theorem tmArr_nil (i : Int) : tmArr [] i = [] := by simp [tmArr]

theorem tmArr_cons (v : JValue) (rest : List JValue) (i : Int) :
    tmArr (v :: rest) i
      = (tmplsOf v).map (fun pr => (pr.1, JKey.idx i :: pr.2)) ++ tmArr rest (i + 1) := by
  simp [tmArr]

theorem tmObj_nil : tmObj [] = [] := by simp [tmObj]

theorem tmObj_cons (k : String) (v : JValue) (rest : List (String × JValue)) :
    tmObj ((k, v) :: rest)
      = (tmplsOf v).map (fun pr => (pr.1, JKey.key k :: pr.2)) ++ tmObj rest := by
  simp [tmObj]

theorem ss_str (env : PyDict) (s : String) : specSubstitute env (JValue.str s)
    = (if (findVars s).isEmpty then JValue.str s else JValue.str (renderString s env)) := by
  simp [specSubstitute]

theorem ss_num (env : PyDict) (n : Int) : specSubstitute env (JValue.num n) = JValue.num n := by
  simp [specSubstitute]

theorem ss_boolean (env : PyDict) (b : Bool) :
    specSubstitute env (JValue.boolean b) = JValue.boolean b := by
  simp [specSubstitute]

theorem ss_null (env : PyDict) : specSubstitute env JValue.null = JValue.null := by
  simp [specSubstitute]

theorem ss_arr (env : PyDict) (xs : List JValue) :
    specSubstitute env (JValue.arr xs) = JValue.arr (ssArr env xs) := by
  simp [specSubstitute]

theorem ss_obj (env : PyDict) (kvs : List (String × JValue)) :
    specSubstitute env (JValue.obj kvs) = JValue.obj (ssObj env kvs) := by
  simp [specSubstitute]

theorem ssArr_nil (env : PyDict) : ssArr env [] = [] := by simp [ssArr]

theorem ssArr_cons (env : PyDict) (v : JValue) (rest : List JValue) :
    ssArr env (v :: rest) = specSubstitute env v :: ssArr env rest := by
  simp [ssArr]

theorem ssObj_nil (env : PyDict) : ssObj env [] = [] := by simp [ssObj]

theorem ssObj_cons (env : PyDict) (k : String) (v : JValue) (rest : List (String × JValue)) :
    ssObj env ((k, v) :: rest) = (k, specSubstitute env v) :: ssObj env rest := by
  simp [ssObj]

/-! Custom induction over the nested value type. -/

theorem JValue.myInd (P : JValue → Prop)
    (hstr : ∀ s, P (JValue.str s)) (hnum : ∀ n, P (JValue.num n))
    (hbool : ∀ b, P (JValue.boolean b)) (hnull : P JValue.null)
    (harr : ∀ xs, (∀ v ∈ xs, P v) → P (JValue.arr xs))
    (hobj : ∀ kvs, (∀ kv ∈ kvs, P kv.2) → P (JValue.obj kvs)) :
    ∀ v, P v := fun v =>
  match v with
  | JValue.str s => hstr s
  | JValue.num n => hnum n
  | JValue.boolean b => hbool b
  | JValue.null => hnull
  | JValue.arr xs =>
    harr xs (fun u hu => JValue.myInd P hstr hnum hbool hnull harr hobj u)
  | JValue.obj kvs =>
    hobj kvs (fun kv hkv => JValue.myInd P hstr hnum hbool hnull harr hobj kv.2)
termination_by v => sizeOf v
decreasing_by
  · have := List.sizeOf_lt_of_mem hu
    simp only [JValue.arr.sizeOf_spec]
    omega
  · have h1 := List.sizeOf_lt_of_mem hkv
    have h2 : sizeOf kv.2 < sizeOf kv := by
      obtain ⟨a, b⟩ := kv
      simp only [Prod.mk.sizeOf_spec]
      omega
    simp only [JValue.obj.sizeOf_spec]
    omega

/-! Nodup-key helpers. -/

theorem kcontains_append : ∀ (A B : List String) (k : String),
    kcontains (A ++ B) k = (kcontains A k || kcontains B k) := by
  intro A B k
  induction A with
  | nil => simp [kcontains]
  | cons s A ih => simp only [List.cons_append, kcontains, List.append_eq, ih, Bool.or_assoc]

theorem kcontains_of_mem {α : Type} : ∀ (l : List (String × α)) (k : String) (w : α),
    (k, w) ∈ l → kcontains (l.map (fun q => q.1)) k = true := by
  intro l
  induction l with
  | nil => intro k w h; cases h
  | cons p rest ih =>
    intro k w h
    cases h with
    | head => simp [kcontains]
    | tail _ hmem => simp [kcontains, ih k w hmem]

theorem knodup_middle : ∀ (A : List String) (k : String) (B : List String),
    knodup (A ++ k :: B) = true → kcontains A k = false ∧ kcontains B k = false := by
  intro A
  induction A with
  | nil =>
    intro k B h
    simp only [List.nil_append, knodup, Bool.and_eq_true, Bool.not_eq_true'] at h
    exact ⟨rfl, h.1⟩
  | cons s A ih =>
    intro k B h
    simp only [List.cons_append, knodup, List.append_eq, Bool.and_eq_true,
               Bool.not_eq_true'] at h
    obtain ⟨hs, hrest⟩ := h
    obtain ⟨hA, hB⟩ := ih k B hrest
    rw [kcontains_append] at hs
    rcases Bool.or_eq_false_iff.mp hs with ⟨_, h2⟩
    simp only [kcontains] at h2
    have hks : (k == s) = false := (Bool.or_eq_false_iff.mp h2).1
    have hne : k ≠ s := by simpa using hks
    have hsk : (s == k) = false := by simp [Ne.symm hne]
    refine ⟨?_, hB⟩
    simp only [kcontains, hsk, Bool.false_or]
    exact hA

theorem dnodup_middle {α : Type} (pre : List (String × α)) (k : String) (w : α)
    (rest : List (String × α)) (h : dnodup (pre ++ (k, w) :: rest) = true) :
    dcontains pre k = false ∧ dcontains rest k = false := by
  have h' : knodup ((pre.map (fun q => q.1)) ++ k :: (rest.map (fun q => q.1))) = true := by
    simpa [dnodup, List.map_append] using h
  obtain ⟨hA, hB⟩ := knodup_middle (pre.map (fun q => q.1)) k (rest.map (fun q => q.1)) h'
  exact ⟨by rw [dcontains_eq_kcontains]; exact hA, by rw [dcontains_eq_kcontains]; exact hB⟩

theorem dnodup_set_mid {α : Type} (pre : List (String × α)) (k : String) (w w' : α)
    (rest : List (String × α)) (h : dnodup (pre ++ (k, w) :: rest) = true) :
    dnodup (pre ++ (k, w') :: rest) = true := by
  simp only [dnodup, List.map_append, List.map_cons] at h ⊢
  exact h

theorem dlookup_of_mem_nodup {α : Type} : ∀ (l : List (String × α)) (k : String) (w : α),
    dnodup l = true → (k, w) ∈ l → dlookup l k = some w := by
  intro l
  induction l with
  | nil => intro k w _ hm; cases hm
  | cons p rest ih =>
    intro k w hnd hm
    have hk : kcontains (rest.map (fun q => q.1)) p.1 = false ∧
        knodup (rest.map (fun q => q.1)) = true := by
      simp only [dnodup, List.map_cons, knodup, Bool.and_eq_true, Bool.not_eq_true'] at hnd
      exact hnd
    cases hm with
    | head => rw [dlookup_cons, if_pos (by simp)]
    | tail _ hmem =>
      have hkc := kcontains_of_mem rest k w hmem
      have hne : (p.1 == k) = false := by
        cases hb : p.1 == k
        · rfl
        · exfalso
          have hpk : p.1 = k := by simpa using hb
          have h1 := hk.1
          rw [hpk] at h1
          rw [h1] at hkc
          cases hkc
      rw [dlookup_cons, if_neg (by simp [hne])]
      exact ih k w hk.2 hmem

/-! Path get/put equations and index lemmas. -/

theorem put_nil (v x : JValue) : put_value_by_keys [] v x = x := rfl

theorem put_key_obj (s : String) (ks : List JKey) (kvs : List (String × JValue)) (x : JValue) :
    put_value_by_keys (JKey.key s :: ks) (JValue.obj kvs) x
      = JValue.obj (kvs.map (fun p =>
          if p.1 == s then (p.1, put_value_by_keys ks p.2 x) else p)) := rfl

theorem put_idx_arr (i : Int) (ks : List JKey) (l : List JValue) (x : JValue) :
    put_value_by_keys (JKey.idx i :: ks) (JValue.arr l) x
      = (match pyNormIdx l.length i with
         | some n => JValue.arr (listModify l n (fun w => put_value_by_keys ks w x))
         | none => JValue.arr l) := rfl

theorem get_nil (v : JValue) : get_value_by_keys [] v = some v := rfl

theorem get_key_obj (s : String) (ks : List JKey) (kvs : List (String × JValue)) :
    get_value_by_keys (JKey.key s :: ks) (JValue.obj kvs)
      = (match dlookup kvs s with
         | some w => get_value_by_keys ks w
         | none => none) := rfl

theorem get_idx_arr (i : Int) (ks : List JKey) (l : List JValue) :
    get_value_by_keys (JKey.idx i :: ks) (JValue.arr l)
      = (match pyNormIdx l.length i with
         | some n =>
           match l.get? n with
           | some w => get_value_by_keys ks w
           | none => none
         | none => none) := rfl

theorem pyNormIdx_natCast (len n : Nat) (h : n < len) : pyNormIdx len (n : Int) = some n := by
  unfold pyNormIdx
  rw [if_pos ⟨Int.natCast_nonneg n, by exact_mod_cast h⟩]
  simp

theorem listModify_append {α : Type} : ∀ (pre : List α) (x : α) (rest : List α) (f : α → α),
    listModify (pre ++ x :: rest) pre.length f = pre ++ f x :: rest := by
  intro pre
  induction pre with
  | nil => intro x rest f; rfl
  | cons a pre ih =>
    intro x rest f
    simp only [List.cons_append, List.length_cons, listModify, List.append_eq]
    rw [ih]

/-! Render-fold equations. -/

theorem renderTemplates_nil (fn : JValue) (env : PyDict) :
    renderTemplates fn [] env = fn := rfl

theorem renderTemplates_cons (fn : JValue) (s : String) (ks : List JKey)
    (ts : List (String × List JKey)) (env : PyDict) :
    renderTemplates fn ((s, ks) :: ts) env
      = renderTemplates (put_value_by_keys ks fn (JValue.str (renderString s env))) ts env := rfl

theorem renderTemplates_append (fn : JValue) (ts1 ts2 : List (String × List JKey))
    (env : PyDict) :
    renderTemplates fn (ts1 ++ ts2) env = renderTemplates (renderTemplates fn ts1 env) ts2 env := by
  simp [renderTemplates, List.foldl_append]

theorem map_put_id (l : List (String × JValue)) (k : String) (ks : List JKey) (x : JValue)
    (h : dcontains l k = false) :
    l.map (fun p => if p.1 == k then (p.1, put_value_by_keys ks p.2 x) else p) = l := by
  induction l with
  | nil => rfl
  | cons p rest ih =>
    rw [dcontains_cons, Bool.or_eq_false_iff] at h
    simp only [List.map_cons, h.1, Bool.false_eq_true, if_false]
    rw [ih h.2]

/-! Folding one child's templates over an object / array. -/

theorem renderFold_obj_child (env : PyDict) :
    ∀ (ts : List (String × List JKey)) (pre rest : List (String × JValue))
      (k : String) (w : JValue),
      dcontains pre k = false → dcontains rest k = false →
      renderTemplates (JValue.obj (pre ++ (k, w) :: rest))
          (ts.map (fun pr => (pr.1, JKey.key k :: pr.2))) env
        = JValue.obj (pre ++ (k, renderTemplates w ts env) :: rest) := by
  intro ts
  induction ts with
  | nil => intro pre rest k w _ _; rfl
  | cons t ts ih =>
    intro pre rest k w h1 h2
    obtain ⟨s, ks⟩ := t
    simp only [List.map_cons]
    rw [renderTemplates_cons, renderTemplates_cons]
    have hput : put_value_by_keys (JKey.key k :: ks) (JValue.obj (pre ++ (k, w) :: rest))
        (JValue.str (renderString s env))
      = JValue.obj (pre ++ (k, put_value_by_keys ks w (JValue.str (renderString s env))) :: rest) := by
      rw [put_key_obj, List.map_append, List.map_cons]
      rw [map_put_id pre k ks _ h1, map_put_id rest k ks _ h2]
      simp
    rw [hput]
    exact ih pre rest k _ h1 h2

theorem renderFold_arr_child (env : PyDict) :
    ∀ (ts : List (String × List JKey)) (pre rest : List JValue) (w : JValue),
      renderTemplates (JValue.arr (pre ++ w :: rest))
          (ts.map (fun pr => (pr.1, JKey.idx (pre.length : Int) :: pr.2))) env
        = JValue.arr (pre ++ renderTemplates w ts env :: rest) := by
  intro ts
  induction ts with
  | nil => intro pre rest w; rfl
  | cons t ts ih =>
    intro pre rest w
    obtain ⟨s, ks⟩ := t
    simp only [List.map_cons]
    rw [renderTemplates_cons, renderTemplates_cons]
    have hlen : pre.length < (pre ++ w :: rest).length := by
      simp [List.length_append]
    have hn : pyNormIdx (pre ++ w :: rest).length (pre.length : Int) = some pre.length :=
      pyNormIdx_natCast _ _ hlen
    have step1 : put_value_by_keys (JKey.idx (pre.length : Int) :: ks)
        (JValue.arr (pre ++ w :: rest)) (JValue.str (renderString s env))
      = JValue.arr (listModify (pre ++ w :: rest) pre.length
          (fun u => put_value_by_keys ks u (JValue.str (renderString s env)))) := by
      rw [put_idx_arr, hn]
    have hput : put_value_by_keys (JKey.idx (pre.length : Int) :: ks)
        (JValue.arr (pre ++ w :: rest)) (JValue.str (renderString s env))
      = JValue.arr (pre ++ put_value_by_keys ks w (JValue.str (renderString s env)) :: rest) := by
      rw [step1, listModify_append]
    rw [hput]
    exact ih pre rest _

/-! Folding a whole object's / array's templates. -/

theorem renderFold_obj (env : PyDict) :
    ∀ (kvs pre : List (String × JValue)),
      (∀ kv ∈ kvs, WFb kv.2 = true →
        renderTemplates kv.2 (tmplsOf kv.2) env = specSubstitute env kv.2) →
      dnodup (pre ++ kvs) = true →
      (∀ kv ∈ kvs, WFb kv.2 = true) →
      renderTemplates (JValue.obj (pre ++ kvs)) (tmObj kvs) env
        = JValue.obj (pre ++ ssObj env kvs) := by
  intro kvs
  induction kvs with
  | nil =>
    intro pre _ _ _
    rw [tmObj_nil, renderTemplates_nil, ssObj_nil]
  | cons kv rest ih =>
    intro pre hIH hnd hwf
    obtain ⟨k, w⟩ := kv
    rw [tmObj_cons, renderTemplates_append]
    obtain ⟨h1, h2⟩ := dnodup_middle pre k w rest hnd
    rw [renderFold_obj_child env (tmplsOf w) pre rest k w h1 h2]
    have hw : WFb w = true := hwf (k, w) (List.mem_cons_self _ _)
    have hren : renderTemplates w (tmplsOf w) env = specSubstitute env w :=
      hIH (k, w) (List.mem_cons_self _ _) hw
    rw [hren]
    have hnd' : dnodup ((pre ++ [(k, specSubstitute env w)]) ++ rest) = true := by
      have hmid := dnodup_set_mid pre k w (specSubstitute env w) rest hnd
      simpa [List.append_assoc] using hmid
    have hrec := ih (pre ++ [(k, specSubstitute env w)])
      (fun kv hm hwfv => hIH kv (List.mem_cons_of_mem _ hm) hwfv)
      hnd'
      (fun kv hm => hwf kv (List.mem_cons_of_mem _ hm))
    rw [ssObj_cons]
    calc renderTemplates (JValue.obj (pre ++ (k, specSubstitute env w) :: rest)) (tmObj rest) env
        = renderTemplates (JValue.obj ((pre ++ [(k, specSubstitute env w)]) ++ rest))
            (tmObj rest) env := by
          rw [List.append_assoc, List.singleton_append]
      _ = JValue.obj ((pre ++ [(k, specSubstitute env w)]) ++ ssObj env rest) := hrec
      _ = JValue.obj (pre ++ (k, specSubstitute env w) :: ssObj env rest) := by
          rw [List.append_assoc, List.singleton_append]

theorem renderFold_arr (env : PyDict) :
    ∀ (xs pre : List JValue),
      (∀ v ∈ xs, WFb v = true → renderTemplates v (tmplsOf v) env = specSubstitute env v) →
      (∀ v ∈ xs, WFb v = true) →
      renderTemplates (JValue.arr (pre ++ xs)) (tmArr xs (pre.length : Int)) env
        = JValue.arr (pre ++ ssArr env xs) := by
  intro xs
  induction xs with
  | nil =>
    intro pre _ _
    rw [tmArr_nil, renderTemplates_nil, ssArr_nil]
  | cons w rest ih =>
    intro pre hIH hwf
    rw [tmArr_cons, renderTemplates_append]
    rw [renderFold_arr_child env (tmplsOf w) pre rest w]
    have hw : WFb w = true := hwf w (List.mem_cons_self _ _)
    have hren : renderTemplates w (tmplsOf w) env = specSubstitute env w :=
      hIH w (List.mem_cons_self _ _) hw
    rw [hren]
    have hcast : (pre.length : Int) + 1 = ((pre ++ [specSubstitute env w]).length : Int) := by
      simp [List.length_append]
    rw [hcast]
    have hrec := ih (pre ++ [specSubstitute env w])
      (fun v hm h => hIH v (List.mem_cons_of_mem _ hm) h)
      (fun v hm => hwf v (List.mem_cons_of_mem _ hm))
    rw [ssArr_cons]
    calc renderTemplates (JValue.arr (pre ++ specSubstitute env w :: rest)) (tmArr rest _) env
        = renderTemplates (JValue.arr ((pre ++ [specSubstitute env w]) ++ rest))
            (tmArr rest _) env := by
          rw [List.append_assoc, List.singleton_append]
      _ = JValue.arr ((pre ++ [specSubstitute env w]) ++ ssArr env rest) := hrec
      _ = JValue.arr (pre ++ specSubstitute env w :: ssArr env rest) := by
          rw [List.append_assoc, List.singleton_append]

/-! The structural round-trip: the template-render fold equals the
specification-side substitution on every well-formed template. -/

theorem renderTemplates_tmplsOf (env : PyDict) :
    ∀ v, WFb v = true → renderTemplates v (tmplsOf v) env = specSubstitute env v := by
  refine JValue.myInd
    (fun v => WFb v = true → renderTemplates v (tmplsOf v) env = specSubstitute env v)
    ?_ ?_ ?_ ?_ ?_ ?_
  · intro s _
    rw [tm_str, ss_str]
    by_cases he : (findVars s).isEmpty
    · rw [if_pos he, if_pos he, renderTemplates_nil]
    · rw [if_neg he, if_neg he]
      rfl
  · intro n _
    rw [tm_num, renderTemplates_nil, ss_num]
  · intro b _
    rw [tm_boolean, renderTemplates_nil, ss_boolean]
  · intro _
    rw [tm_null, renderTemplates_nil, ss_null]
  · intro xs hIH h
    rw [WFb_arr] at h
    rw [tm_arr, ss_arr]
    have hfold := renderFold_arr env xs [] (fun v hm hw => hIH v hm hw) (wfArr_mem xs h)
    simpa using hfold
  · intro kvs hIH h
    rw [WFb_obj, Bool.and_eq_true] at h
    rw [tm_obj, ss_obj]
    have hfold := renderFold_obj env kvs [] (fun kv hm hw => hIH kv hm hw)
      (by simpa using h.1) (wfObj_mem kvs h.2)
    simpa using hfold

/-! The recorded extraction entries versus the structural template list. -/

theorem wfArr_nil : wfArr [] = true := by simp [wfArr]

theorem wfObj_nil : wfObj [] = true := by simp [wfObj]

theorem extract_eq_tmpls :
    ∀ v, extract_jinja_indices v = (tmplsOf v).map (fun pr => (pr.2, findVars pr.1)) := by
  refine JValue.myInd
    (fun v => extract_jinja_indices v = (tmplsOf v).map (fun pr => (pr.2, findVars pr.1)))
    ?_ ?_ ?_ ?_ ?_ ?_
  · intro s
    rw [ej_str, tm_str]
    by_cases he : (findVars s).isEmpty
    · rw [if_pos he, if_pos he]; rfl
    · rw [if_neg he, if_neg he]; rfl
  · intro n; rw [ej_num, tm_num]; rfl
  · intro b; rw [ej_boolean, tm_boolean]; rfl
  · show extract_jinja_indices JValue.null
      = (tmplsOf JValue.null).map (fun pr => (pr.2, findVars pr.1))
    rw [ej_null, tm_null]; rfl
  · intro xs hIH
    rw [ej_arr, tm_arr]
    have aux : ∀ (ys : List JValue),
        (∀ v ∈ ys, extract_jinja_indices v = (tmplsOf v).map (fun pr => (pr.2, findVars pr.1))) →
        ∀ (i : Int), ejArr ys i = (tmArr ys i).map (fun pr => (pr.2, findVars pr.1)) := by
      intro ys
      induction ys with
      | nil => intro _ i; rw [ejArr_nil, tmArr_nil]; rfl
      | cons v rest ihy =>
        intro hm i
        rw [ejArr_cons, tmArr_cons, List.map_append, List.map_map,
            hm v (List.mem_cons_self _ _), List.map_map]
        congr 1
        exact ihy (fun u hu => hm u (List.mem_cons_of_mem _ hu)) (i + 1)
    exact aux xs hIH 0
  · intro kvs hIH
    rw [ej_obj, tm_obj]
    have aux : ∀ (ys : List (String × JValue)),
        (∀ kv ∈ ys, extract_jinja_indices kv.2
          = (tmplsOf kv.2).map (fun pr => (pr.2, findVars pr.1))) →
        ejObj ys = (tmObj ys).map (fun pr => (pr.2, findVars pr.1)) := by
      intro ys
      induction ys with
      | nil => intro _; rw [ejObj_nil, tmObj_nil]; rfl
      | cons kv rest ihy =>
        intro hm
        obtain ⟨k, v⟩ := kv
        rw [ejObj_cons, tmObj_cons, List.map_append, List.map_map]
        have hv : extract_jinja_indices v = (tmplsOf v).map (fun pr => (pr.2, findVars pr.1)) :=
          hm (k, v) (List.mem_cons_self _ _)
        rw [hv, List.map_map]
        congr 1
        exact ihy (fun u hu => hm u (List.mem_cons_of_mem _ hu))
    exact aux kvs hIH

/-! Membership decompositions of the template lists. -/

theorem tmArr_mem : ∀ (xs : List JValue) (i : Int) (pr : String × List JKey),
    pr ∈ tmArr xs i →
    ∃ (n : Nat) (w : JValue) (p' : List JKey),
      xs.get? n = some w ∧ pr.2 = JKey.idx (i + (n : Int)) :: p' ∧ (pr.1, p') ∈ tmplsOf w := by
  intro xs
  induction xs with
  | nil => intro i pr h; rw [tmArr_nil] at h; cases h
  | cons w rest ih =>
    intro i pr h
    rw [tmArr_cons] at h
    rcases List.mem_append.mp h with h | h
    · obtain ⟨q, hq, heq⟩ := List.mem_map.mp h
      refine ⟨0, w, q.2, rfl, ?_, ?_⟩
      · rw [← heq]; simp
      · have h1 : pr.1 = q.1 := by rw [← heq]
        rw [h1]
        simpa using hq
    · obtain ⟨n, w', p', hget, hp2, hmem⟩ := ih (i + 1) pr h
      refine ⟨n + 1, w', p', by simpa using hget, ?_, hmem⟩
      rw [hp2]
      congr 2
      push_cast
      ring

theorem tmObj_mem : ∀ (kvs : List (String × JValue)) (pr : String × List JKey),
    pr ∈ tmObj kvs →
    ∃ (k : String) (w : JValue) (p' : List JKey),
      (k, w) ∈ kvs ∧ pr.2 = JKey.key k :: p' ∧ (pr.1, p') ∈ tmplsOf w := by
  intro kvs
  induction kvs with
  | nil => intro pr h; rw [tmObj_nil] at h; cases h
  | cons kv rest ih =>
    intro pr h
    obtain ⟨k, w⟩ := kv
    rw [tmObj_cons] at h
    rcases List.mem_append.mp h with h | h
    · obtain ⟨q, hq, heq⟩ := List.mem_map.mp h
      refine ⟨k, w, q.2, List.mem_cons_self _ _, ?_, ?_⟩
      · rw [← heq]
      · have h1 : pr.1 = q.1 := by rw [← heq]
        rw [h1]
        simpa using hq
    · obtain ⟨k', w', p', hmem, hp2, hm2⟩ := ih pr h
      exact ⟨k', w', p', List.mem_cons_of_mem _ hmem, hp2, hm2⟩

/-! Every recorded template path points at its string leaf. -/

theorem get_tmplsOf :
    ∀ v, WFb v = true → ∀ pr ∈ tmplsOf v,
      get_value_by_keys pr.2 v = some (JValue.str pr.1) ∧
      (findVars pr.1).isEmpty = false := by
  refine JValue.myInd
    (fun v => WFb v = true → ∀ pr ∈ tmplsOf v,
      get_value_by_keys pr.2 v = some (JValue.str pr.1) ∧
      (findVars pr.1).isEmpty = false)
    ?_ ?_ ?_ ?_ ?_ ?_
  · intro s _ pr hpr
    rw [tm_str] at hpr
    by_cases he : (findVars s).isEmpty
    · rw [if_pos he] at hpr; cases hpr
    · rw [if_neg he] at hpr
      have hp : pr = (s, []) := List.mem_singleton.mp hpr
      subst hp
      exact ⟨get_nil _, by simpa using he⟩
  · intro n _ pr hpr; rw [tm_num] at hpr; cases hpr
  · intro b _ pr hpr; rw [tm_boolean] at hpr; cases hpr
  · intro _ pr hpr; rw [tm_null] at hpr; cases hpr
  · intro xs hIH h pr hpr
    rw [WFb_arr] at h
    rw [tm_arr] at hpr
    obtain ⟨n, w, p', hget, hp2, hmem⟩ := tmArr_mem xs 0 pr hpr
    have hw : w ∈ xs := List.get?_mem hget
    have hWF : WFb w = true := wfArr_mem xs h w hw
    obtain ⟨hgv, hfv⟩ := hIH w hw hWF (pr.1, p') hmem
    have hgv' : get_value_by_keys p' w = some (JValue.str pr.1) := hgv
    have hfv' : (findVars pr.1).isEmpty = false := hfv
    refine ⟨?_, hfv'⟩
    have hlen : n < xs.length := (List.get?_eq_some.mp hget).1
    have step1 : get_value_by_keys (JKey.idx ((n : Nat) : Int) :: p') (JValue.arr xs)
        = (match xs.get? n with
           | some u => get_value_by_keys p' u
           | none => none) := by
      rw [get_idx_arr, pyNormIdx_natCast _ _ hlen]
    have step2 : get_value_by_keys (JKey.idx ((n : Nat) : Int) :: p') (JValue.arr xs)
        = get_value_by_keys p' w := by
      rw [step1, hget]
    rw [hp2]
    have hz : (0 : Int) + (n : Int) = ((n : Nat) : Int) := by ring
    rw [hz, step2, hgv']
  · intro kvs hIH h pr hpr
    rw [WFb_obj, Bool.and_eq_true] at h
    rw [tm_obj] at hpr
    obtain ⟨k, w, p', hmem, hp2, hm2⟩ := tmObj_mem kvs pr hpr
    have hWF : WFb w = true := wfObj_mem kvs h.2 (k, w) hmem
    obtain ⟨hgv, hfv⟩ := hIH (k, w) hmem hWF (pr.1, p') hm2
    have hgv' : get_value_by_keys p' w = some (JValue.str pr.1) := hgv
    refine ⟨?_, hfv⟩
    have hlk : dlookup kvs k = some w := dlookup_of_mem_nodup kvs k w h.1 hmem
    have step1 : get_value_by_keys (JKey.key k :: p') (JValue.obj kvs)
        = get_value_by_keys p' w := by
      rw [get_key_obj, hlk]
    rw [hp2, step1, hgv']

/-! The template-initialization loop succeeds on well-formed templates and
stores exactly the structural template list. -/

theorem findVars_empty : findVars "" = [] := rfl

theorem initTemplatesAux_tmpls (fn : JValue) :
    ∀ (L : List (String × List JKey)) (acc : List (String × List JKey)),
      (∀ pr ∈ L, get_value_by_keys pr.2 fn = some (JValue.str pr.1) ∧
        (findVars pr.1).isEmpty = false) →
      initTemplatesAux fn (L.map (fun pr => (pr.2, findVars pr.1))) acc
        = Except.ok (acc ++ L) := by
  intro L
  induction L with
  | nil => intro acc _; simp [initTemplatesAux]
  | cons pr rest ih =>
    intro acc hall
    obtain ⟨hget, hfv⟩ := hall pr (List.mem_cons_self _ _)
    have hne : pr.1 ≠ "" := by
      intro hx
      rw [hx, findVars_empty] at hfv
      simp at hfv
    simp only [List.map_cons]
    have hstep : initTemplatesAux fn
        ((pr.2, findVars pr.1) :: rest.map (fun q => (q.2, findVars q.1))) acc
      = initTemplatesAux fn (rest.map (fun q => (q.2, findVars q.1)))
          (acc ++ [(pr.1, pr.2)]) := by
      simp only [initTemplatesAux, hget]
      rw [if_neg hne]
    rw [hstep, ih (acc ++ [(pr.1, pr.2)]) (fun q hq => hall q (List.mem_cons_of_mem _ hq))]
    congr 1
    simp [List.append_assoc]

theorem initTemplates_eq_tmplsOf (v : JValue) (h : WFb v = true) :
    initTemplates v = Except.ok (tmplsOf v) := by
  unfold initTemplates
  rw [extract_eq_tmpls v]
  have haux := initTemplatesAux_tmpls v (tmplsOf v) [] (fun pr hpr => get_tmplsOf v h pr hpr)
  simpa using haux

/-! # C1: template-mode rendering is a structural round-trip -/

/-- C1: for a well-formed template-mode request body, the construction-time
template loop of `AIAction.__init__` (`initTemplates`, whose result is stored
verbatim in `self.templates`) succeeds and records exactly one (raw string,
path) pair per placeholder leaf (`tmplsOf`), and the invocation-time render
loop of `AIAction.__call__` (`renderTemplates`: deep copy plus write-back of
each rendered string at its recorded path) produces the value structurally
identical to the template with exactly the placeholder leaves replaced by
their rendered strings (`specSubstitute`); everything outside placeholder
leaves is preserved, and the template itself is untouched (the fold writes
into a copy). -/
theorem c1_template_structural_roundtrip :
    ∀ (t : PyDict) (env : PyDict),
      WFb (JValue.obj t) = true →
      (∀ pr ∈ extract_jinja_indices (JValue.obj t), ∀ n ∈ pr.2, dcontains env n = true) →
      initTemplates (JValue.obj t) = Except.ok (tmplsOf (JValue.obj t)) ∧
      renderTemplates (JValue.obj t) (tmplsOf (JValue.obj t)) env
        = specSubstitute env (JValue.obj t) := by
  intro t env hwf _
  exact ⟨initTemplates_eq_tmplsOf (JValue.obj t) hwf,
         renderTemplates_tmplsOf env (JValue.obj t) hwf⟩

/-! Closed evaluations for the Scenario A witness. -/

theorem c1_extract_eval :
    extract_jinja_indices (JValue.obj tW) = [([JKey.key "say"], ["text"])] := by
  have h1 : extract_jinja_indices (JValue.obj [("say", JValue.str sTpl)])
      = [([JKey.key "say"], ["text"])] := by
    rw [ej_obj, ejObj_cons, ejObj_nil, ej_str]
    rw [show findVars sTpl = ["text"] from rfl]
    simp
  exact h1

theorem c1_wf_eval : WFb (JValue.obj tW) = true := by
  have h1 : WFb (JValue.obj [("say", JValue.str sTpl)]) = true := by
    rw [WFb_obj, wfObj_cons, WFb_str, wfObj_nil]
    rfl
  exact h1

/-- Witness for C1 at the Scenario A template `{"say": "{{text}}"}` with
payload `{"text": "hi"}`. -/
theorem c1_template_structural_roundtrip_witness :
    initTemplates (JValue.obj tW) = Except.ok (tmplsOf (JValue.obj tW)) ∧
    renderTemplates (JValue.obj tW) (tmplsOf (JValue.obj tW)) envW
      = specSubstitute envW (JValue.obj tW) :=
  c1_template_structural_roundtrip tW envW c1_wf_eval
    (by
      intro pr hpr n hn
      rw [c1_extract_eval] at hpr
      have hp : pr = ([JKey.key "say"], ["text"]) := List.mem_singleton.mp hpr
      subst hp
      have hx : n = "text" := by simpa using hn
      subst hx
      rfl)
